import Mathlib

/-!
Verification of the CORS diagnoser core (analyzer, pattern catalog,
security rule set, header normalizer, history ledger) against its
natural-language specification.  The TypeScript sources are shallowly
embedded: JS strings are Lean `String`s manipulated through their
character lists, JS `Map`/`Record` values are association lists with
insert-or-replace semantics, possibly-`undefined` values are `Option`,
and a JS function that can throw is embedded in `Except Unit`.
-/

namespace CorsDiag

/-! ## JS string primitives (ASCII model of the JS case mappings) -/

/-- Model of `String.prototype.toLowerCase` on a single character,
restricted to ASCII (the only case mapping exercised by the sources). -/
def jsCharToLower (c : Char) : Char :=
  if 65 ≤ c.toNat ∧ c.toNat ≤ 90 then Char.ofNat (c.toNat + 32) else c

/-- Model of `String.prototype.toUpperCase` on a single character (ASCII). -/
def jsCharToUpper (c : Char) : Char :=
  if 97 ≤ c.toNat ∧ c.toNat ≤ 122 then Char.ofNat (c.toNat - 32) else c

/-- The whitespace class of `String.prototype.trim`: the ECMAScript
WhiteSpace code points (TAB, VT, FF, SP, NBSP, ZWNBSP and the Unicode
space separators U+1680, U+2000..U+200A, U+202F, U+205F, U+3000) together
with the LineTerminator code points (LF, CR, LS, PS). -/
def jsIsWhitespace (c : Char) : Bool :=
  c.toNat = 9 || c.toNat = 10 || c.toNat = 11 || c.toNat = 12 || c.toNat = 13 ||
  c.toNat = 32 || c.toNat = 160 || c.toNat = 5760 ||
  (8192 ≤ c.toNat ∧ c.toNat ≤ 8202) ||
  c.toNat = 8232 || c.toNat = 8233 || c.toNat = 8239 || c.toNat = 8287 ||
  c.toNat = 12288 || c.toNat = 65279

/-- `s.toLowerCase()`. -/
def jsToLower (s : String) : String := String.mk (s.data.map jsCharToLower)

/-- `s.toUpperCase()`. -/
def jsToUpper (s : String) : String := String.mk (s.data.map jsCharToUpper)

/-- Character-list form of `s.trim()`: drop whitespace at both ends. -/
def trimChars (l : List Char) : List Char :=
  ((l.dropWhile jsIsWhitespace).reverse.dropWhile jsIsWhitespace).reverse

/-- `s.trim()`. -/
def jsTrim (s : String) : String := String.mk (trimChars s.data)

/-- `list.join(sep)`. -/
def jsJoin (sep : String) : List String → String
  | [] => ""
  | [s] => s
  | s :: rest => s ++ sep ++ jsJoin sep rest

/-- A JS `number` that is either an integer or `NaN` (the only values
produced by the sources: literals and `parseInt` results). -/
inductive JsNum where
  | int (n : Int)
  | nan
  deriving DecidableEq, Repr

/-- `n.toString()` for a `JsNum`. -/
def JsNum.asString : JsNum → String
  | .int n => toString n
  | .nan => "NaN"

/-- JS strict equality `===` on numbers: `NaN === NaN` is false. -/
def JsNum.strictEq : JsNum → JsNum → Bool
  | .int a, .int b => a = b
  | _, _ => false

/-- Model of `parseInt(s, 10)`: skip leading whitespace, read an optional
sign and then decimal digits; `NaN` when no digit follows. -/
def jsParseInt (s : String) : JsNum :=
  let l := s.data.dropWhile jsIsWhitespace
  let (sign, l) : Int × List Char :=
    match l with
    | '-' :: rest => (-1, rest)
    | '+' :: rest => (1, rest)
    | _ => (1, l)
  let digits := l.takeWhile Char.isDigit
  if digits = [] then .nan
  else .int (sign * (digits.foldl (fun acc c => acc * 10 + (c.toNat - 48)) 0 : Nat))

/-! ## Header normalizer (`src/core/utils.ts`, `normalizeOrigin`) -/

/-- `normalizeOrigin(origin: string | undefined | null)`: falsy input
(null, undefined, the empty string) yields `""`; otherwise trim,
lower-case and strip one trailing slash. -/
def normalizeOrigin (origin : Option String) : String :=
  match origin with
  | none => ""
  | some o =>
    if o = "" then ""
    else
      let normalized := jsToLower (jsTrim o)
      if normalized.data.getLast? = some '/' then String.mk normalized.data.dropLast
      else normalized

/-! ## Case-insensitive header map (`parseHeaders`) -/

/-- A raw header value of a JS `Record<string, string | string[] | undefined>`. -/
inductive HeaderValue where
  | str (s : String)
  | arr (a : List String)
  | undef
  deriving DecidableEq, Repr

/-- A raw header bag: the record entries in insertion order. -/
abbrev HeaderBag := List (String × HeaderValue)

/-- A JS `Map<string, string>` as an association list in insertion order. -/
abbrev HeaderMap := List (String × String)

/-- `map.set(k, v)`: replace in place when the key exists, else append. -/
def mapSet (m : HeaderMap) (k v : String) : HeaderMap :=
  if m.any (fun p => p.1 = k) then m.map (fun p => if p.1 = k then (k, v) else p)
  else m ++ [(k, v)]

/-- `map.get(k)`: `undefined` becomes `none`. -/
def mapGet (m : HeaderMap) (k : String) : Option String :=
  (m.find? (fun p => p.1 = k)).map (fun p => p.2)

/-- `map.has(k)`. -/
def mapHas (m : HeaderMap) (k : String) : Bool :=
  (m.find? (fun p => p.1 = k)).isSome

/-- One iteration of the `parseHeaders` loop body. -/
def parseHeadersStep (acc : HeaderMap) (kv : String × HeaderValue) : HeaderMap :=
  match kv.2 with
  | .undef => acc
  | .str s => if s ≠ "" then mapSet acc (jsToLower kv.1) s else acc
  | .arr a =>
    match a.head? with
    | some s => if s ≠ "" then mapSet acc (jsToLower kv.1) s else acc
    | none => acc

/-- `parseHeaders(headers)`: build a case-insensitive map; `undefined`
entries are skipped, array values take index 0, falsy (empty) string
values are skipped, keys are lower-cased. -/
def parseHeaders (headers : Option HeaderBag) : HeaderMap :=
  match headers with
  | none => []
  | some hs => hs.foldl parseHeadersStep []

/-- A request as the analyzer sees it: `req.method` and `req.headers`. -/
structure Req where
  method : String
  headers : HeaderBag
  deriving Repr

/-- `isPreflightRequest(req)`: an `OPTIONS` request carrying
`access-control-request-method` or `access-control-request-headers`. -/
def isPreflightRequest (req : Req) : Bool :=
  if req.method ≠ "OPTIONS" then false
  else
    let headers := parseHeaders (some req.headers)
    mapHas headers "access-control-request-method" ||
      mapHas headers "access-control-request-headers"

/-! ## Stable sort (model of ES2019 `Array.prototype.sort`, which is stable) -/

/-- Insert `a` in front of the first element it compares `le` to. -/
def insertBy (le : α → α → Bool) (a : α) : List α → List α
  | [] => [a]
  | b :: l => if le a b then a :: b :: l else b :: insertBy le a l

/-- Insertion sort; stable for any `le`, hence a faithful model of the
JS engine's stable `Array.prototype.sort` under comparator `le`. -/
def stableSort (le : α → α → Bool) : List α → List α
  | [] => []
  | a :: l => insertBy le a (stableSort le l)

/-! ## Security rule set (`src/core/securityAdvisor.ts`) -/

/-- Severity of a security issue. -/
inductive Level where
  | info
  | warning
  | critical
  deriving DecidableEq, Repr

/-- `SecurityIssue` record. -/
structure SecurityIssue where
  level : Level
  title : String
  description : String
  recommendation : String
  deriving DecidableEq, Repr

/-- The `origin` property: an exact string, a list, or a boolean. -/
inductive OriginCfg where
  | str (s : String)
  | list (l : List String)
  | bool (b : Bool)
  deriving DecidableEq, Repr

/-- `CorsConfiguration`: optional properties are `Option` (`none` models an
absent key).  `maxAge` is a JS number, hence `JsNum` (it may be `NaN` when
reconstructed by the analyzer through `parseInt`). -/
structure CorsConfiguration where
  origin : OriginCfg
  methods : Option (List String) := none
  allowedHeaders : Option (List String) := none
  exposedHeaders : Option (List String) := none
  credentials : Option Bool := none
  maxAge : Option JsNum := none
  deriving DecidableEq, Repr

/-- `SENSITIVE_HEADERS`. -/
def SENSITIVE_HEADERS : List String :=
  ["authorization", "cookie", "set-cookie", "x-csrf-token", "x-xsrf-token",
   "x-api-key", "x-auth-token", "x-access-token", "x-refresh-token"]

/-- `POTENTIALLY_DANGEROUS_METHODS`. -/
def POTENTIALLY_DANGEROUS_METHODS : List String := ["DELETE", "PUT", "PATCH", "TRACE"]

/-- The `environment` argument of `checkSecurity`. -/
inductive Env where
  | development
  | production
  deriving DecidableEq, Repr

/-- The wildcard-origin test the source writes twice in `checkSecurity`:
`config.origin === "*" || config.origin === true || (Array.isArray(config.origin)
&& config.origin.includes("*"))`. -/
def isWildcardOrigin : OriginCfg → Bool
  | .str s => s = "*"
  | .bool b => b
  | .list l => l.contains "*"

/-- The `issues` array of `checkSecurity` before the final sort: the four
checks push at most one issue each, in source order. -/
def checkSecurityRaw (config : CorsConfiguration) (environment : Env) : List SecurityIssue :=
  (if environment = Env.production ∧ isWildcardOrigin config.origin then
    [{ level := .warning
       title := "Wildcard Origin in Production"
       description := "Access-Control-Allow-Origin is set to '*' (wildcard) in production environment. This allows any website to make requests to your API, which may expose sensitive data or functionality."
       recommendation := "Specify exact allowed origins instead of using wildcard. Use an array of trusted domains or implement dynamic origin validation based on a whitelist." }]
   else []) ++
  (if config.credentials = some true ∧ isWildcardOrigin config.origin then
    [{ level := .critical
       title := "Credentials with Wildcard Origin"
       description := "Access-Control-Allow-Credentials is set to 'true' while Access-Control-Allow-Origin is '*' (wildcard). This combination is forbidden by the CORS specification and will cause all requests to fail. Additionally, this represents a severe security vulnerability if it were allowed."
       recommendation := "Replace the wildcard origin with specific allowed origins. When using credentials, you must specify exact origins (e.g., 'https://example.com'). Never use wildcard with credentials." }]
   else []) ++
  (match config.exposedHeaders with
   | some hs =>
     if hs.length > 0 then
       let exposedSensitiveHeaders := hs.filter (fun h => SENSITIVE_HEADERS.contains (jsToLower h))
       if exposedSensitiveHeaders.length > 0 then
         [{ level := .warning
            title := "Sensitive Headers Exposed"
            description := "The following sensitive headers are exposed via Access-Control-Expose-Headers: " ++ jsJoin ", " exposedSensitiveHeaders ++ ". This allows client-side JavaScript to read these headers, which may contain sensitive information like authentication tokens or session data."
            recommendation := "Review the list of exposed headers and remove any that contain sensitive information. Only expose headers that are safe for client-side JavaScript to access. Consider using secure, httpOnly cookies for sensitive data instead." }]
       else []
     else []
   | none => []) ++
  (match config.methods with
   | some ms =>
     if ms.length > 0 then
       let unnecessaryMethods := ms.filter (fun m => POTENTIALLY_DANGEROUS_METHODS.contains (jsToUpper m))
       if unnecessaryMethods.length > 0 then
         [{ level := .info
            title := "Potentially Unnecessary HTTP Methods Allowed"
            description := "The following HTTP methods are allowed: " ++ jsJoin ", " unnecessaryMethods ++ ". While not necessarily a security issue, allowing methods like DELETE, PUT, or PATCH increases the attack surface of your API."
            recommendation := "Follow the principle of least privilege: only allow HTTP methods that your API actually needs. If your API is read-only, consider allowing only GET and HEAD. Review each allowed method and ensure it's necessary for your use case." }]
       else []
     else []
   | none => [])

/-- `severityOrder`: critical 0, warning 1, info 2. -/
def levelRank : Level → Nat
  | .critical => 0
  | .warning => 1
  | .info => 2

/-- The comparator `(a, b) => severityOrder[a.level] - severityOrder[b.level]`
as the ordering it induces. -/
def issueLe (a b : SecurityIssue) : Bool := levelRank a.level ≤ levelRank b.level

/-- `checkSecurity(config, environment = "production")`: run the four checks,
then sort the issues by severity (critical, warning, info). -/
def checkSecurity (config : CorsConfiguration) (environment : Env := .production) :
    List SecurityIssue :=
  stableSort issueLe (checkSecurityRaw config environment)

/-! ## Pattern catalog (`src/core/patternMatcher.ts`) -/

/-- JS truthiness of a `string | undefined` value: `undefined` and `""` are falsy. -/
def jsTruthy : Option String → Bool
  | none => false
  | some s => s ≠ ""

/-- The part of a parsed URL the port-mismatch detector reads. -/
structure UrlModel where
  hostname : String
  port : String
  deriving DecidableEq, Repr

/-- Split a character list at the first occurrence of `sep`. -/
def breakOnSub (sep : List Char) : List Char → Option (List Char × List Char)
  | [] => if sep = [] then some ([], []) else none
  | c :: rest =>
    if sep.isPrefixOf (c :: rest) then some ([], (c :: rest).drop sep.length)
    else (breakOnSub sep rest).map (fun p => (c :: p.1, p.2))

/-- Simplified model of the platform `new URL(s)` constructor, reading only
the fields the sources use: it throws (`Except.error`) when `s` has no
`scheme://` part, else yields the lower-cased host and the port text. -/
def jsParseUrl (s : String) : Except Unit UrlModel :=
  match breakOnSub "://".data s.data with
  | none => .error ()
  | some (scheme, rest) =>
    if scheme = [] then .error ()
    else
      let authority := rest.takeWhile (fun c => c ≠ '/')
      let host := authority.takeWhile (fun c => c ≠ ':')
      let port := (authority.dropWhile (fun c => c ≠ ':')).drop 1
      .ok { hostname := String.mk (host.map jsCharToLower), port := String.mk port }

/-- `ErrorPattern`: a catalog entry.  The detector is embedded in
`Except Unit` so that a detector that throws is representable; every
detector of the source catalog is total and returns `Except.ok`. -/
structure ErrorPattern where
  id : String
  name : String
  detector : Req → HeaderBag → Except Unit Bool
  explanation : String
  solution : String
  codeExample : String

/-- Catalog entry `wildcard-credentials-conflict`. -/
def patWildcardCredentials : ErrorPattern where
  id := "wildcard-credentials-conflict"
  name := "Wildcard Origin with Credentials Conflict"
  detector := fun _req res =>
    let resHeaders := parseHeaders (some res)
    .ok (mapGet resHeaders "access-control-allow-origin" == some "*" &&
         mapGet resHeaders "access-control-allow-credentials" == some "true")
  explanation := "Access-Control-Allow-Origin is set to '*' (wildcard) while Access-Control-Allow-Credentials is 'true'. This combination is forbidden by the CORS specification. When credentials are included, you must specify an exact origin."
  solution := "Replace the wildcard '*' with the specific origin from the request, or disable credentials if you need to allow all origins."
  codeExample := "// Instead of:\napp.use(cors(\x7b origin: '*', credentials: true \x7d));\n\n// Use:\napp.use(cors(\x7b \n  origin: 'https://example.com', // or use a function to validate origins\n  credentials: true \n\x7d));\n\n// Or with dynamic origin:\napp.use(cors(\x7b \n  origin: (origin, callback) => \x7b\n    const allowedOrigins = ['https://example.com', 'https://app.example.com'];\n    if (!origin || allowedOrigins.includes(origin)) \x7b\n      callback(null, true);\n    \x7d else \x7b\n      callback(new Error('Not allowed by CORS'));\n    \x7d\n  \x7d,\n  credentials: true \n\x7d));"

/-- Catalog entry `multiple-origins-misconfiguration`. -/
def patMultipleOrigins : ErrorPattern where
  id := "multiple-origins-misconfiguration"
  name := "Multiple Origins Misconfiguration"
  detector := fun _req res =>
    let allowOrigin := mapGet (parseHeaders (some res)) "access-control-allow-origin"
    .ok (jsTruthy allowOrigin && (allowOrigin.getD "").data.contains ',')
  explanation := "Access-Control-Allow-Origin contains multiple origins separated by commas. The CORS specification only allows a single origin or '*' in this header. You cannot specify multiple origins directly."
  solution := "Use a function to dynamically return the appropriate origin based on the request, or use a CORS middleware that handles multiple origins."
  codeExample := "// Instead of:\nres.setHeader('Access-Control-Allow-Origin', 'https://example.com, https://app.example.com');\n\n// Use:\nconst allowedOrigins = ['https://example.com', 'https://app.example.com'];\nconst origin = req.headers.origin;\nif (origin && allowedOrigins.includes(origin)) \x7b\n  res.setHeader('Access-Control-Allow-Origin', origin);\n\x7d\n\n// Or with cors middleware:\napp.use(cors(\x7b \n  origin: ['https://example.com', 'https://app.example.com']\n\x7d));"

/-- Catalog entry `preflight-only-failure`. -/
def patPreflightFailure : ErrorPattern where
  id := "preflight-only-failure"
  name := "Preflight Request Failure"
  detector := fun req res =>
    if !isPreflightRequest req then .ok false
    else
      let resHeaders := parseHeaders (some res)
      .ok (!mapHas resHeaders "access-control-allow-origin" ||
           !mapHas resHeaders "access-control-allow-methods")
  explanation := "The preflight OPTIONS request is missing required CORS headers. Preflight requests must include Access-Control-Allow-Origin and Access-Control-Allow-Methods headers in the response."
  solution := "Ensure your server responds to OPTIONS requests with the appropriate CORS headers, or use a CORS middleware that handles preflight automatically."
  codeExample := "// Add OPTIONS handler before your routes:\napp.options('*', cors());\n\n// Or handle manually:\napp.options('/api/*', (req, res) => \x7b\n  res.setHeader('Access-Control-Allow-Origin', req.headers.origin || '*');\n  res.setHeader('Access-Control-Allow-Methods', 'GET, POST, PUT, DELETE, OPTIONS');\n  res.setHeader('Access-Control-Allow-Headers', 'Content-Type, Authorization');\n  res.sendStatus(204);\n\x7d);"

/-- Catalog entry `custom-headers-not-allowed`. -/
def patCustomHeaders : ErrorPattern where
  id := "custom-headers-not-allowed"
  name := "Custom Headers Not Allowed"
  detector := fun req res =>
    if !isPreflightRequest req then .ok false
    else
      let reqHeaders := parseHeaders (some req.headers)
      let resHeaders := parseHeaders (some res)
      .ok (jsTruthy (mapGet reqHeaders "access-control-request-headers") &&
           !jsTruthy (mapGet resHeaders "access-control-allow-headers"))
  explanation := "The browser is requesting permission to send custom headers (via Access-Control-Request-Headers), but the server is not responding with Access-Control-Allow-Headers to grant permission."
  solution := "Add the Access-Control-Allow-Headers header to your preflight response, listing all custom headers your API accepts."
  codeExample := "// With cors middleware:\napp.use(cors(\x7b \n  allowedHeaders: ['Content-Type', 'Authorization', 'X-Custom-Header']\n\x7d));\n\n// Or manually:\napp.options('/api/*', (req, res) => \x7b\n  res.setHeader('Access-Control-Allow-Headers', 'Content-Type, Authorization, X-Custom-Header');\n  res.sendStatus(204);\n\x7d);"

/-- Catalog entry `missing-allow-origin`. -/
def patMissingAllowOrigin : ErrorPattern where
  id := "missing-allow-origin"
  name := "Missing Access-Control-Allow-Origin"
  detector := fun req res =>
    let origin := mapGet (parseHeaders (some req.headers)) "origin"
    let allowOrigin := mapGet (parseHeaders (some res)) "access-control-allow-origin"
    .ok (jsTruthy origin && !jsTruthy allowOrigin)
  explanation := "The request includes an Origin header, but the server response is missing the Access-Control-Allow-Origin header. This is the most common CORS error."
  solution := "Add the Access-Control-Allow-Origin header to your response. Use a CORS middleware or set the header manually."
  codeExample := "// Using cors middleware (recommended):\nimport cors from 'cors';\napp.use(cors());\n\n// Or manually for specific routes:\napp.get('/api/data', (req, res) => \x7b\n  res.setHeader('Access-Control-Allow-Origin', req.headers.origin || '*');\n  res.json(\x7b data: 'your data' \x7d);\n\x7d);\n\n// Or for specific origin:\napp.use(cors(\x7b origin: 'https://example.com' \x7d));"

/-- Catalog entry `missing-allow-headers`. -/
def patMissingAllowHeaders : ErrorPattern where
  id := "missing-allow-headers"
  name := "Missing Access-Control-Allow-Headers on Preflight"
  detector := fun req res =>
    if !isPreflightRequest req then .ok false
    else
      let requestedHeaders := mapGet (parseHeaders (some req.headers)) "access-control-request-headers"
      let allowedHeaders := mapGet (parseHeaders (some res)) "access-control-allow-headers"
      .ok (jsTruthy requestedHeaders && !jsTruthy allowedHeaders)
  explanation := "The preflight request includes Access-Control-Request-Headers, but the response is missing Access-Control-Allow-Headers. The browser needs explicit permission to send custom headers."
  solution := "Include the Access-Control-Allow-Headers header in your preflight response with the list of allowed headers."
  codeExample := "// With cors middleware:\napp.use(cors(\x7b \n  allowedHeaders: ['Content-Type', 'Authorization']\n\x7d));\n\n// Or handle OPTIONS manually:\napp.options('*', (req, res) => \x7b\n  res.setHeader('Access-Control-Allow-Headers', req.headers['access-control-request-headers'] || '*');\n  res.sendStatus(204);\n\x7d);"

/-- Catalog entry `missing-allow-methods`. -/
def patMissingAllowMethods : ErrorPattern where
  id := "missing-allow-methods"
  name := "Missing Access-Control-Allow-Methods on Preflight"
  detector := fun req res =>
    if !isPreflightRequest req then .ok false
    else
      .ok (!jsTruthy (mapGet (parseHeaders (some res)) "access-control-allow-methods"))
  explanation := "The preflight OPTIONS request is missing the Access-Control-Allow-Methods header. This header tells the browser which HTTP methods are allowed for the actual request."
  solution := "Add the Access-Control-Allow-Methods header to your preflight response, listing all HTTP methods your API supports."
  codeExample := "// With cors middleware:\napp.use(cors(\x7b \n  methods: ['GET', 'POST', 'PUT', 'DELETE', 'PATCH']\n\x7d));\n\n// Or manually:\napp.options('*', (req, res) => \x7b\n  res.setHeader('Access-Control-Allow-Methods', 'GET, POST, PUT, DELETE, PATCH');\n  res.sendStatus(204);\n\x7d);"

/-- Catalog entry `credentials-mismatch`. -/
def patCredentialsMismatch : ErrorPattern where
  id := "credentials-mismatch"
  name := "Credentials Mode Mismatch"
  detector := fun req res =>
    let reqHeaders := parseHeaders (some req.headers)
    let resHeaders := parseHeaders (some res)
    .ok (mapHas reqHeaders "cookie" &&
         !(mapGet resHeaders "access-control-allow-credentials" == some "true"))
  explanation := "The frontend is sending credentials (cookies, authorization headers) but the server is not responding with Access-Control-Allow-Credentials: true. Credentials will be blocked."
  solution := "Enable credentials in your CORS configuration on the server, and ensure you're using a specific origin (not wildcard)."
  codeExample := "// Backend (Express):\napp.use(cors(\x7b \n  origin: 'https://example.com',\n  credentials: true \n\x7d));\n\n// Frontend (fetch):\nfetch('https://api.example.com/data', \x7b\n  credentials: 'include' // This sends cookies\n\x7d);\n\n// Frontend (axios):\naxios.get('https://api.example.com/data', \x7b\n  withCredentials: true\n\x7d);"

/-- Catalog entry `origin-null-blocked`. -/
def patOriginNullBlocked : ErrorPattern where
  id := "origin-null-blocked"
  name := "Origin 'null' Blocked"
  detector := fun req res =>
    let origin := mapGet (parseHeaders (some req.headers)) "origin"
    let allowOrigin := mapGet (parseHeaders (some res)) "access-control-allow-origin"
    .ok (origin == some "null" && !(allowOrigin == some "null") && !(allowOrigin == some "*"))
  explanation := "The request has Origin: null (common with file:// protocol, sandboxed iframes, or redirects), but the server is not configured to allow it. This is a security-sensitive scenario."
  solution := "If you need to support null origins (e.g., for local file testing), explicitly allow it. However, be cautious as this can be a security risk in production."
  codeExample := "// For development/testing only:\napp.use(cors(\x7b \n  origin: (origin, callback) => \x7b\n    // Allow null origin for local development\n    if (!origin || origin === 'null') \x7b\n      callback(null, true);\n    \x7d else \x7b\n      callback(null, origin);\n    \x7d\n  \x7d\n\x7d));\n\n// Better: Use a local development server instead of file://\n// npx http-server or python -m http.server"

/-- Catalog entry `port-mismatch`.  The inner `try/catch` around the URL
constructor is part of the detector, so the detector itself never throws. -/
def patPortMismatch : ErrorPattern where
  id := "port-mismatch"
  name := "Same Domain Different Port Blocked"
  detector := fun req res =>
    let origin := mapGet (parseHeaders (some req.headers)) "origin"
    let allowOrigin := mapGet (parseHeaders (some res)) "access-control-allow-origin"
    if !jsTruthy origin || !jsTruthy allowOrigin || allowOrigin == some "*" then .ok false
    else
      match jsParseUrl (origin.getD ""), jsParseUrl (allowOrigin.getD "") with
      | .ok originUrl, .ok allowedUrl =>
        .ok (originUrl.hostname == allowedUrl.hostname && !(originUrl.port == allowedUrl.port))
      | _, _ => .ok false
  explanation := "The request is from the same domain but a different port (e.g., localhost:3000 vs localhost:5000). Browsers treat different ports as different origins, so CORS applies."
  solution := "Include the full origin with the port number in your CORS configuration, or use a dynamic origin validator."
  codeExample := "// Allow specific ports:\napp.use(cors(\x7b \n  origin: ['http://localhost:3000', 'http://localhost:5000']\n\x7d));\n\n// Or allow all localhost ports (development only):\napp.use(cors(\x7b \n  origin: (origin, callback) => \x7b\n    if (!origin || origin.startsWith('http://localhost:')) \x7b\n      callback(null, true);\n    \x7d else \x7b\n      callback(new Error('Not allowed by CORS'));\n    \x7d\n  \x7d\n\x7d));"

/-- `COMMON_PATTERNS`: the fixed catalog in declaration order. -/
def COMMON_PATTERNS : List ErrorPattern :=
  [patWildcardCredentials, patMultipleOrigins, patPreflightFailure, patCustomHeaders,
   patMissingAllowOrigin, patMissingAllowHeaders, patMissingAllowMethods,
   patCredentialsMismatch, patOriginNullBlocked, patPortMismatch]

/-- The `detectPattern` loop over an arbitrary catalog: first detector that
returns true wins; a detector that throws is caught and the scan continues. -/
def detectPatternWith (catalog : List ErrorPattern) (req : Req) (res : HeaderBag) :
    Option ErrorPattern :=
  match catalog with
  | [] => none
  | p :: rest =>
    match p.detector req res with
    | .ok true => some p
    | .ok false => detectPatternWith rest req res
    | .error _ => detectPatternWith rest req res

/-- `detectPattern(req, res)`: scan `COMMON_PATTERNS`. -/
def detectPattern (req : Req) (res : HeaderBag) : Option ErrorPattern :=
  detectPatternWith COMMON_PATTERNS req res

/-- The spec's description of the catalog scan, stated as its own
definition for the refinement theorem below: the first catalog entry
whose detector returns true, a thrown detector counting as no match. -/
def firstMatchSpec (catalog : List ErrorPattern) (req : Req) (res : HeaderBag) :
    Option ErrorPattern :=
  catalog.find? fun p =>
    match p.detector req res with
    | .ok true => true
    | _ => false

/-! ## Code example generator (`src/core/codeGenerator.ts`, `generateExpressExample`) -/

/-- `CodeExample` record. -/
structure CodeExample where
  language : String
  code : String
  description : String
  deriving DecidableEq, Repr

/-- `CodeContext`: the optional context of a code example. -/
structure CodeContext where
  origin : Option String := none
  origins : Option (List String) := none
  methods : Option (List String) := none
  headers : Option (List String) := none
  credentials : Option Bool := none
  issue : Option String := none
  deriving DecidableEq, Repr

/-- JS `a || b` on a possibly-undefined string (`undefined` and `""` fall through). -/
def jsOrStr (a : Option String) (b : String) : String :=
  match a with
  | some s => if s ≠ "" then s else b
  | none => b

/-- `s.includes(sub)`. -/
def jsIncludes (s sub : String) : Bool := (breakOnSub sub.data s.data).isSome

/-- `JSON.stringify(list)` for a list of strings (compact form). -/
def jsonStringifyList (l : List String) : String :=
  "[" ++ jsJoin "," (l.map (fun s => "\"" ++ s ++ "\"")) ++ "]"

/-- `JSON.stringify(list, null, 2)` for a list of strings (two-space indent). -/
def jsonStringifyListPretty (l : List String) : String :=
  if l = [] then "[]"
  else "[\n" ++ jsJoin ",\n" (l.map (fun s => "  \"" ++ s ++ "\"")) ++ "\n]"

/-- `generateExpressExample(issue, context)`: pick a template from the issue
label and fill it from the context. -/
def generateExpressExample (issue : String) (context : CodeContext := {}) : CodeExample :=
  if jsIncludes issue "wildcard" && jsIncludes issue "credentials" then
    let specificOrigin := jsOrStr context.origin
      (jsOrStr (context.origins.bind List.head?) "https://example.com")
    { language := "typescript"
      description := "Configure CORS with specific origin when using credentials"
      code := "import cors from 'cors';\nimport express from 'express';\n\nconst app = express();\n\n// Configure CORS with specific origin for credentials\napp.use(cors(\x7b\n  origin: '" ++ specificOrigin ++ "',\n  credentials: true\n\x7d));\n\n// Or with multiple origins:\napp.use(cors(\x7b\n  origin: ['https://example.com', 'https://app.example.com'],\n  credentials: true\n\x7d));" }
  else if jsIncludes issue "multiple" && jsIncludes issue "origin" then
    let originList := context.origins.getD ["https://example.com", "https://app.example.com"]
    { language := "typescript"
      description := "Configure CORS to handle multiple origins correctly"
      code := "import cors from 'cors';\nimport express from 'express';\n\nconst app = express();\n\n// Method 1: Use array of allowed origins\napp.use(cors(\x7b\n  origin: " ++ jsonStringifyListPretty originList ++ "\n\x7d));\n\n// Method 2: Use dynamic origin validation\napp.use(cors(\x7b\n  origin: (origin, callback) => \x7b\n    const allowedOrigins = " ++ jsonStringifyListPretty originList ++ ";\n    if (!origin || allowedOrigins.includes(origin)) \x7b\n      callback(null, true);\n    \x7d else \x7b\n      callback(new Error('Not allowed by CORS'));\n    \x7d\n  \x7d\n\x7d));" }
  else if jsIncludes issue "preflight" || jsIncludes issue "OPTIONS" then
    let allowedMethods := context.methods.getD ["GET", "POST", "PUT", "DELETE", "PATCH"]
    let allowedHeaders := context.headers.getD ["Content-Type", "Authorization"]
    { language := "typescript"
      description := "Configure CORS to handle preflight requests"
      code := "import cors from 'cors';\nimport express from 'express';\n\nconst app = express();\n\n// Enable preflight for all routes\napp.options('*', cors());\n\n// Or configure CORS with specific methods and headers\napp.use(cors(\x7b\n  origin: '" ++ jsOrStr context.origin "https://example.com" ++ "',\n  methods: " ++ jsonStringifyList allowedMethods ++ ",\n  allowedHeaders: " ++ jsonStringifyList allowedHeaders ++ ",\n  preflightContinue: false,\n  optionsSuccessStatus: 204\n\x7d));" }
  else if jsIncludes issue "custom header" || jsIncludes issue "Access-Control-Allow-Headers" then
    let allowedHeaders := context.headers.getD ["Content-Type", "Authorization", "X-Custom-Header"]
    { language := "typescript"
      description := "Configure CORS to allow custom headers"
      code := "import cors from 'cors';\nimport express from 'express';\n\nconst app = express();\n\n// Allow specific custom headers\napp.use(cors(\x7b\n  origin: '" ++ jsOrStr context.origin "https://example.com" ++ "',\n  allowedHeaders: " ++ jsonStringifyList allowedHeaders ++ "\n\x7d));\n\n// Or allow all requested headers (less secure)\napp.use(cors(\x7b\n  origin: '" ++ jsOrStr context.origin "https://example.com" ++ "',\n  allowedHeaders: '*'\n\x7d));" }
  else if jsIncludes issue "credentials" then
    { language := "typescript"
      description := "Configure CORS to allow credentials (cookies, auth headers)"
      code := "import cors from 'cors';\nimport express from 'express';\n\nconst app = express();\n\n// Enable credentials with specific origin\napp.use(cors(\x7b\n  origin: '" ++ jsOrStr context.origin "https://example.com" ++ "',\n  credentials: true\n\x7d));\n\n// Note: Cannot use wildcard '*' with credentials\n// Must specify exact origin(s)" }
  else if jsIncludes issue "method" then
    let allowedMethods := context.methods.getD ["GET", "POST", "PUT", "DELETE"]
    { language := "typescript"
      description := "Configure CORS to allow specific HTTP methods"
      code := "import cors from 'cors';\nimport express from 'express';\n\nconst app = express();\n\n// Allow specific HTTP methods\napp.use(cors(\x7b\n  origin: '" ++ jsOrStr context.origin "https://example.com" ++ "',\n  methods: " ++ jsonStringifyList allowedMethods ++ "\n\x7d));" }
  else
    { language := "typescript"
      description := "Basic CORS configuration for Express"
      code := "import cors from 'cors';\nimport express from 'express';\n\nconst app = express();\n\n// Basic CORS - allows all origins\napp.use(cors());\n\n// Or with specific origin\napp.use(cors(\x7b\n  origin: '" ++ jsOrStr context.origin "https://example.com" ++ "'\n\x7d));\n\n// Or with multiple origins\napp.use(cors(\x7b\n  origin: ['https://example.com', 'https://app.example.com']\n\x7d));" }

/-! ## Analyzer (`src/backend/analyzer.ts`) -/

/-- `Diagnosis` record. -/
structure Diagnosis where
  issue : String
  description : String
  recommendation : String
  codeExample : Option String := none
  pattern : Option String := none
  severity : Option Level := none
  deriving DecidableEq, Repr

/-- JS `x || undefined` for a possibly-undefined string. -/
def jsOrUndef (o : Option String) : Option String := if jsTruthy o then o else none

/-- The ad hoc checks 1-4 of `analyzeHeaders` (missing allow-origin, origin
mismatch, wildcard+credentials, and the two preflight checks), in source
order. -/
def adHocDiagnoses (req : Req) (res : HeaderBag) : List Diagnosis :=
  let reqHeaders := parseHeaders (some req.headers)
  let resHeaders := parseHeaders (some res)
  let requestOrigin := mapGet reqHeaders "origin"
  let isPreflight := isPreflightRequest req
  let allowOrigin := mapGet resHeaders "access-control-allow-origin"
  let allowCredentials := mapGet resHeaders "access-control-allow-credentials"
  (if jsTruthy requestOrigin && !jsTruthy allowOrigin then
    [{ issue := "Missing Access-Control-Allow-Origin"
       description := "The request includes an Origin header (" ++ requestOrigin.getD "" ++ "), but the server response is missing the Access-Control-Allow-Origin header. This is the most common CORS error and will cause the browser to block the response."
       recommendation := "Add the Access-Control-Allow-Origin header to your response. Use a CORS middleware like 'cors' for Express, or set the header manually in your route handlers."
       codeExample := some (generateExpressExample "missing allow origin" { origin := jsOrUndef requestOrigin }).code
       severity := some .critical }]
   else []) ++
  (if jsTruthy requestOrigin && jsTruthy allowOrigin && !(allowOrigin == some "*") then
    if normalizeOrigin requestOrigin ≠ normalizeOrigin allowOrigin then
      [{ issue := "Origin Mismatch"
         description := "The request origin (" ++ requestOrigin.getD "" ++ ") does not match the Access-Control-Allow-Origin header (" ++ allowOrigin.getD "" ++ "). The browser will block this response."
         recommendation := "Ensure your CORS configuration includes the requesting origin, or use a dynamic origin validator to check against a whitelist of allowed origins."
         codeExample := some (generateExpressExample "origin mismatch" { origin := jsOrUndef requestOrigin }).code
         severity := some .critical }]
    else []
   else []) ++
  (if allowOrigin == some "*" && allowCredentials == some "true" then
    [{ issue := "Wildcard Origin with Credentials"
       description := "Access-Control-Allow-Origin is set to '*' (wildcard) while Access-Control-Allow-Credentials is 'true'. This combination is forbidden by the CORS specification and will cause all requests to fail."
       recommendation := "Replace the wildcard '*' with the specific origin from the request. When using credentials, you must specify an exact origin."
       codeExample := some (generateExpressExample "wildcard credentials conflict" { origin := jsOrUndef requestOrigin, credentials := some true }).code
       pattern := some "wildcard-credentials-conflict"
       severity := some .critical }]
   else []) ++
  (if isPreflight then
    (if !jsTruthy (mapGet resHeaders "access-control-allow-methods") then
      [{ issue := "Missing Access-Control-Allow-Methods on Preflight"
         description := "This is a preflight OPTIONS request, but the response is missing the Access-Control-Allow-Methods header. The browser needs to know which HTTP methods are allowed."
         recommendation := "Add the Access-Control-Allow-Methods header to your preflight response, listing all HTTP methods your API supports (e.g., 'GET, POST, PUT, DELETE')."
         codeExample := some (generateExpressExample "preflight missing methods" { origin := jsOrUndef requestOrigin, methods := some ["GET", "POST", "PUT", "DELETE", "PATCH"] }).code
         severity := some .critical }]
     else []) ++
    (let requestHeaders := mapGet reqHeaders "access-control-request-headers"
     let allowHeaders := mapGet resHeaders "access-control-allow-headers"
     if jsTruthy requestHeaders && !jsTruthy allowHeaders then
      [{ issue := "Missing Access-Control-Allow-Headers on Preflight"
         description := "The browser is requesting permission to send custom headers (" ++ requestHeaders.getD "" ++ "), but the server is not responding with Access-Control-Allow-Headers to grant permission."
         recommendation := "Add the Access-Control-Allow-Headers header to your preflight response, listing all custom headers your API accepts."
         codeExample := some (generateExpressExample "custom headers not allowed" { origin := jsOrUndef requestOrigin, headers := some (((requestHeaders.getD "").splitOn ",").map jsTrim) }).code
         pattern := some "custom-headers-not-allowed"
         severity := some .critical }]
     else [])
   else [])

/-- Check 5 of `analyzeHeaders`: catalog scan plus the dedup against the
diagnoses already collected. -/
def patternDiagnoses (catalog : List ErrorPattern) (req : Req) (res : HeaderBag)
    (diagnoses : List Diagnosis) : List Diagnosis :=
  match detectPatternWith catalog req res with
  | some p =>
    if diagnoses.any (fun d => d.pattern == some p.id) then []
    else
      [{ issue := p.name, description := p.explanation, recommendation := p.solution,
         codeExample := some p.codeExample, pattern := some p.id, severity := some .warning }]
  | none => []

/-- Check 6 of `analyzeHeaders`: the `CorsConfiguration` snapshot
reconstructed from the response headers. -/
def responseConfig (res : HeaderBag) : CorsConfiguration :=
  let resHeaders := parseHeaders (some res)
  let allowOrigin := mapGet resHeaders "access-control-allow-origin"
  let allowCredentials := mapGet resHeaders "access-control-allow-credentials"
  { origin := if jsTruthy allowOrigin then OriginCfg.str (allowOrigin.getD "") else OriginCfg.bool false
    methods := (mapGet resHeaders "access-control-allow-methods").map
      (fun s => (s.splitOn ",").map jsTrim)
    allowedHeaders := (mapGet resHeaders "access-control-allow-headers").map
      (fun s => (s.splitOn ",").map jsTrim)
    exposedHeaders := (mapGet resHeaders "access-control-expose-headers").map
      (fun s => (s.splitOn ",").map jsTrim)
    credentials := some (allowCredentials == some "true")
    maxAge := if jsTruthy (mapGet resHeaders "access-control-max-age") then
        some (jsParseInt ((mapGet resHeaders "access-control-max-age").getD ""))
      else none }

/-- Check 6 of `analyzeHeaders`: security issues of the reconstructed
configuration mapped into diagnoses (severity preserved). -/
def securityDiagnoses (res : HeaderBag) : List Diagnosis :=
  (checkSecurity (responseConfig res)).map (fun i =>
    { issue := i.title, description := i.description, recommendation := i.recommendation,
      severity := some i.level })

/-- `analyzeHeaders(req, res)` over an explicit catalog: the six checks in
source order, each appending the diagnoses it produces. -/
def analyzeHeadersWith (catalog : List ErrorPattern) (req : Req) (res : HeaderBag) :
    List Diagnosis :=
  let diagnoses := adHocDiagnoses req res
  let diagnoses := diagnoses ++ patternDiagnoses catalog req res diagnoses
  diagnoses ++ securityDiagnoses res

/-- `analyzeHeaders(req, res)`: the source scan over `COMMON_PATTERNS`. -/
def analyzeHeaders (req : Req) (res : HeaderBag) : List Diagnosis :=
  analyzeHeadersWith COMMON_PATTERNS req res

/-! ## `compareConfiguration` -/

/-- The property keys of a `CorsConfiguration` object literal. -/
inductive CfgKey where
  | origin
  | methods
  | allowedHeaders
  | exposedHeaders
  | credentials
  | maxAge
  deriving DecidableEq, Repr

/-- The key as the string `Object.keys` yields. -/
def CfgKey.asString : CfgKey → String
  | .origin => "origin"
  | .methods => "methods"
  | .allowedHeaders => "allowedHeaders"
  | .exposedHeaders => "exposedHeaders"
  | .credentials => "credentials"
  | .maxAge => "maxAge"

/-- A property value of a `CorsConfiguration`. -/
inductive CfgVal where
  | str (s : String)
  | strList (l : List String)
  | bool (b : Bool)
  | num (n : JsNum)
  deriving DecidableEq, Repr

/-- `config[key]` (`none` = the key is absent / `undefined`). -/
def cfgGet (c : CorsConfiguration) : CfgKey → Option CfgVal
  | .origin => some (match c.origin with
      | .str s => .str s
      | .list l => .strList l
      | .bool b => .bool b)
  | .methods => c.methods.map .strList
  | .allowedHeaders => c.allowedHeaders.map .strList
  | .exposedHeaders => c.exposedHeaders.map .strList
  | .credentials => c.credentials.map .bool
  | .maxAge => c.maxAge.map .num

/-- `Object.keys(config)` in declaration order. -/
def cfgKeys (c : CorsConfiguration) : List CfgKey :=
  [CfgKey.origin] ++
  (if c.methods.isSome then [CfgKey.methods] else []) ++
  (if c.allowedHeaders.isSome then [CfgKey.allowedHeaders] else []) ++
  (if c.exposedHeaders.isSome then [CfgKey.exposedHeaders] else []) ++
  (if c.credentials.isSome then [CfgKey.credentials] else []) ++
  (if c.maxAge.isSome then [CfgKey.maxAge] else [])

/-- The UTF-16 code-unit order used by the default `Array.prototype.sort`
comparator, on character lists. -/
def jsStrLeChars : List Char → List Char → Bool
  | [], _ => true
  | _ :: _, [] => false
  | x :: xs, y :: ys => if x < y then true else if y < x then false else jsStrLeChars xs ys

/-- String comparison for the default JS sort. -/
def jsStrLe (a b : String) : Bool := jsStrLeChars a.data b.data

/-- The `normalize` helper of `compareConfiguration`: `value.sort()` on an
array (NOTE: in the source this sorts the array **in place**), identity
otherwise.  This is the returned value; the aliasing effect on the input
configuration is modelled by `cfgSortKey` below. -/
def normalizeVal : CfgVal → CfgVal
  | .strList l => .strList (stableSort jsStrLe l)
  | v => v

/-- The in-place effect of `normalize` on a configuration: the array held
at `key`, when there is one, is left sorted. -/
def cfgSortKey (c : CorsConfiguration) : CfgKey → CorsConfiguration
  | .origin => match c.origin with
      | .list l => { c with origin := .list (stableSort jsStrLe l) }
      | _ => c
  | .methods => { c with methods := c.methods.map (stableSort jsStrLe) }
  | .allowedHeaders => { c with allowedHeaders := c.allowedHeaders.map (stableSort jsStrLe) }
  | .exposedHeaders => { c with exposedHeaders := c.exposedHeaders.map (stableSort jsStrLe) }
  | .credentials => c
  | .maxAge => c

/-- The `isEqual` helper: arrays compare as sorted copies (length first),
anything else by strict equality (`NaN === NaN` is false). -/
def isEqualVal (a b : CfgVal) : Bool :=
  match a, b with
  | .strList x, .strList y =>
    if x.length ≠ y.length then false
    else stableSort jsStrLe x == stableSort jsStrLe y
  | .str x, .str y => x == y
  | .bool x, .bool y => x == y
  | .num x, .num y => JsNum.strictEq x y
  | _, _ => false

/-- `JSON.stringify` of a property value (for the summary text). -/
def jsonStringifyVal : CfgVal → String
  | .str s => "\"" ++ s ++ "\""
  | .strList l => jsonStringifyList l
  | .bool true => "true"
  | .bool false => "false"
  | .num (.int n) => toString n
  | .num .nan => "null"

/-- `ConfigurationDiff` record; `incorrect` entries are
`(property, current, expected)`. -/
structure ConfigurationDiff where
  missing : List String
  incorrect : List (String × CfgVal × CfgVal)
  extra : List String
  summary : String
  deriving DecidableEq, Repr

/-- One iteration of the first `compareConfiguration` loop (over the keys of
`expected`), threading the in-place mutation of both configurations. -/
def compareStep
    (acc : (List String × List (String × CfgVal × CfgVal)) × CorsConfiguration × CorsConfiguration)
    (key : CfgKey) :
    (List String × List (String × CfgVal × CfgVal)) × CorsConfiguration × CorsConfiguration :=
  let ((missing, incorrect), cur, exp) := acc
  match cfgGet exp key with
  | none => acc
  | some expectedValue =>
    match cfgGet cur key with
    | none => ((missing ++ [key.asString], incorrect), cur, exp)
    | some currentValue =>
      -- `normalize(currentValue)` and `normalize(expectedValue)` both run
      -- here and sort array values in place
      let cur' := cfgSortKey cur key
      let exp' := cfgSortKey exp key
      if !isEqualVal (normalizeVal currentValue) (normalizeVal expectedValue) then
        ((missing, incorrect ++ [(key.asString, normalizeVal currentValue, normalizeVal expectedValue)]), cur', exp')
      else ((missing, incorrect), cur', exp')

/-- `compareConfiguration(current, expected)`.  Besides the diff, the model
returns the two configurations as the call leaves them, making the
in-place array sorting of the `normalize` helper observable. -/
def compareConfiguration (current expected : CorsConfiguration) :
    ConfigurationDiff × CorsConfiguration × CorsConfiguration :=
  let ((missing, incorrect), cur1, exp1) :=
    (cfgKeys expected).foldl compareStep (([], []), current, expected)
  let extra := ((cfgKeys cur1).filter (fun k => cfgGet exp1 k = none)).map CfgKey.asString
  let summary :=
    if missing.length = 0 ∧ incorrect.length = 0 ∧ extra.length = 0 then
      "Configurations match perfectly."
    else
      jsJoin " "
        ((if missing.length > 0 then
            ["Missing properties: " ++ jsJoin ", " missing ++ ". These need to be added to your CORS configuration."]
          else []) ++
         (if incorrect.length > 0 then
            ["Incorrect values: " ++
             jsJoin "; " (incorrect.map (fun item =>
               item.1 ++ " (current: " ++ jsonStringifyVal item.2.1 ++ ", expected: " ++ jsonStringifyVal item.2.2 ++ ")")) ++
             ". These need to be updated."]
          else []) ++
         (if extra.length > 0 then
            ["Extra properties: " ++ jsJoin ", " extra ++ ". These are not needed but won't cause issues."]
          else []))
  ({ missing := missing, incorrect := incorrect, extra := extra, summary := summary }, cur1, exp1)

/-! ## `testOrigin` -/

/-- The `preflight` part of a `TestResult`. -/
structure Preflight where
  required : Bool
  allowed : Bool
  deriving DecidableEq, Repr

/-- `TestResult` record. -/
structure TestResult where
  allowed : Bool
  reason : Option String
  headers : HeaderMap
  preflight : Preflight
  deriving DecidableEq, Repr

/-- The four unconditional header-serialization statements at the end of
`testOrigin`: methods, allowedHeaders, exposedHeaders and maxAge, when
present (and, for the lists, non-empty), are written into the headers
record whatever the `allowed` outcome was. -/
def serializeConfigHeaders (config : CorsConfiguration) (headers1 : HeaderMap) : HeaderMap :=
  let headers2 := match config.methods with
    | some ms => if ms.length > 0 then mapSet headers1 "Access-Control-Allow-Methods" (jsJoin ", " ms) else headers1
    | none => headers1
  let headers3 := match config.allowedHeaders with
    | some hs => if hs.length > 0 then mapSet headers2 "Access-Control-Allow-Headers" (jsJoin ", " hs) else headers2
    | none => headers2
  let headers4 := match config.exposedHeaders with
    | some hs => if hs.length > 0 then mapSet headers3 "Access-Control-Expose-Headers" (jsJoin ", " hs) else headers3
    | none => headers3
  match config.maxAge with
  | some n => mapSet headers4 "Access-Control-Max-Age" n.asString
  | none => headers4

/-- `testOrigin(origin, config)`. -/
def testOrigin (origin : String) (config : CorsConfiguration) : TestResult :=
  let normalizedOrigin := normalizeOrigin (some origin)
  let base : Bool × Option String × HeaderMap :=
    if config.origin = OriginCfg.bool true ∨ config.origin = OriginCfg.str "*" then
      (true, none, mapSet [] "Access-Control-Allow-Origin" "*")
    else
      match config.origin with
      | OriginCfg.str cfgOrigin =>
        if normalizedOrigin = normalizeOrigin (some cfgOrigin) then
          (true, none, mapSet [] "Access-Control-Allow-Origin" cfgOrigin)
        else
          (false, some ("Origin '" ++ origin ++ "' does not match configured origin '" ++ cfgOrigin ++ "'"), [])
      | OriginCfg.list origins =>
        if (origins.map (fun o => normalizeOrigin (some o))).contains normalizedOrigin then
          (true, none, mapSet [] "Access-Control-Allow-Origin" origin)
        else
          (false, some ("Origin '" ++ origin ++ "' is not in the list of allowed origins: " ++ jsJoin ", " origins), [])
      | OriginCfg.bool _ =>
        (false, some "CORS is not configured (origin is false or undefined)", [])
  let afterCred : Bool × Option String × HeaderMap :=
    if config.credentials = some true then
      if mapGet base.2.2 "Access-Control-Allow-Origin" = some "*" then
        (false,
         some "Cannot use wildcard origin (*) with credentials. Must specify exact origin.",
         mapSet base.2.2 "Access-Control-Allow-Credentials" "true")
      else if base.1 then (base.1, base.2.1, mapSet base.2.2 "Access-Control-Allow-Credentials" "true")
      else base
    else base
  let headers5 := serializeConfigHeaders config afterCred.2.2
  let preflightRequired :=
    (match config.methods with
     | some ms => ms.any (fun m => !(["GET", "HEAD", "POST"].contains (jsToUpper m)))
     | none => false) ||
    (match config.allowedHeaders with
     | some hs => hs.length > 0
     | none => false)
  let preflightAllowed := afterCred.1 &&
    (!preflightRequired ||
     ((mapGet headers5 "Access-Control-Allow-Methods").isSome &&
      (mapGet headers5 "Access-Control-Allow-Headers").isSome))
  { allowed := afterCred.1, reason := afterCred.2.1, headers := headers5,
    preflight := { required := preflightRequired, allowed := preflightAllowed } }

/-! ## History ledger (`src/backend/expressMiddleware.ts`, `ErrorHistory`) -/

/-- `CorsError` history entry (`Date` modelled as a tick count). -/
structure CorsError where
  timestamp : Nat
  route : String
  method : String
  origin : String
  diagnoses : List Diagnosis
  count : Nat
  deriving DecidableEq, Repr

/-- `Omit<CorsError, "count">`: what `add` receives. -/
structure CorsErrorInput where
  timestamp : Nat
  route : String
  method : String
  origin : String
  diagnoses : List Diagnosis
  deriving DecidableEq, Repr

/-- Comparator the ledger sorts diagnosis lists with:
`x.issue.localeCompare(y.issue)`, modelled by code-unit order. -/
def diagLe (a b : Diagnosis) : Bool := jsStrLe a.issue b.issue

/-- `diagnosesMatch(a, b)`: equal length, and the issue/description/
recommendation triples agree pointwise after sorting both lists by issue. -/
def diagnosesMatch (a b : List Diagnosis) : Bool :=
  if a.length ≠ b.length then false
  else
    ((stableSort diagLe a).zip (stableSort diagLe b)).all (fun p =>
      p.1.issue == p.2.issue && p.1.description == p.2.description &&
        p.1.recommendation == p.2.recommendation)

/-- The dedup key test of `ErrorHistory.add`: same route, method, origin and
diagnosis signature. -/
def errorMatches (e : CorsError) (i : CorsErrorInput) : Bool :=
  e.route == i.route && e.method == i.method && e.origin == i.origin &&
    diagnosesMatch e.diagnoses i.diagnoses

/-- The ledger: `errors` newest-first, bounded by `maxSize`. -/
structure ErrorHistory where
  errors : List CorsError := []
  maxSize : Nat := 100
  deriving Repr

/-- Mutate the first element satisfying `p` in place (model of mutating the
object `Array.prototype.find` returned). -/
def replaceFirst (p : α → Bool) (f : α → α) : List α → List α
  | [] => []
  | x :: xs => if p x then f x :: xs else x :: replaceFirst p f xs

/-- The fresh entry `{ ...error, count: 1 }` built for a first occurrence. -/
def newEntryOf (error : CorsErrorInput) : CorsError :=
  { timestamp := error.timestamp, route := error.route, method := error.method,
    origin := error.origin, diagnoses := error.diagnoses, count := 1 }

/-- `ErrorHistory.add(error)`: increment and refresh the timestamp of an
existing matching entry, else unshift a fresh entry with count 1 and pop
the last entry when the buffer exceeds `maxSize`. -/
def ErrorHistory.add (h : ErrorHistory) (error : CorsErrorInput) : ErrorHistory :=
  match h.errors.find? (fun e => errorMatches e error) with
  | some _ =>
    let bumped := replaceFirst (fun e => errorMatches e error)
      (fun e => { e with count := e.count + 1, timestamp := error.timestamp }) h.errors
    { h with errors := bumped }
  | none =>
    let errors := newEntryOf error :: h.errors
    { h with errors := if errors.length > h.maxSize then errors.dropLast else errors }

/-- `ErrorHistory.getAll()`: a copy sorted by timestamp, newest first. -/
def ErrorHistory.getAll (h : ErrorHistory) : List CorsError :=
  stableSort (fun a b => decide (b.timestamp ≤ a.timestamp)) h.errors

/-- `ErrorHistory.clear()`. -/
def ErrorHistory.clear (h : ErrorHistory) : ErrorHistory := { h with errors := [] }

/-- `add` iterated `n` times with the same input (n requests with an
identical error). -/
def ErrorHistory.addTimes (h : ErrorHistory) (inp : CorsErrorInput) : Nat → ErrorHistory
  | 0 => h
  | n + 1 => (h.addTimes inp n).add inp

/-! ## Concrete instances used in the statements below -/

/-- The minimal ("empty") configuration: CORS disabled, nothing else set. -/
def emptyConfig : CorsConfiguration := { origin := OriginCfg.bool false }

/-- The configuration of the spec's Scenario 5. -/
def scenario5Config : CorsConfiguration :=
  { origin := OriginCfg.str "*", credentials := some true,
    methods := some ["GET", "DELETE"], exposedHeaders := some ["Authorization"] }

/-- A wildcard-with-credentials configuration that also sets every
serializable property. -/
def claim10Config : CorsConfiguration :=
  { origin := OriginCfg.str "*", credentials := some true,
    methods := some ["GET", "DELETE"], allowedHeaders := some ["X-A"],
    exposedHeaders := some ["X-B"], maxAge := some (JsNum.int 3600) }

/-- A `current` configuration whose methods array is unsorted. -/
def claim7Current : CorsConfiguration :=
  { origin := OriginCfg.str "*", methods := some ["POST", "GET"] }

/-- An `expected` configuration equal to `claim7Current` as a set. -/
def claim7Expected : CorsConfiguration :=
  { origin := OriginCfg.str "*", methods := some ["GET", "POST"] }

/-- A well-formed configuration used to instantiate the self-diff claim. -/
def claim8Config : CorsConfiguration :=
  { origin := OriginCfg.str "https://example.com", methods := some ["GET", "POST"],
    credentials := some true }

/-- A catalog entry whose detector always throws (for exercising the
error-containment of the catalog scan). -/
def throwingPattern : ErrorPattern :=
  { id := "throwing", name := "Throwing", detector := fun _ _ => .error (),
    explanation := "", solution := "", codeExample := "" }

/-- A concrete request used to instantiate the analyzer claims. -/
def exampleReq : Req :=
  { method := "GET", headers := [("origin", HeaderValue.str "https://example.com")] }

/-- Concrete ledger inputs (distinct routes, so distinct dedup keys). -/
def claim5Input : CorsErrorInput :=
  { timestamp := 5, route := "/a", method := "GET", origin := "https://x", diagnoses := [] }

/-- A second ledger input. -/
def claim5Input2 : CorsErrorInput :=
  { timestamp := 6, route := "/b", method := "GET", origin := "https://x", diagnoses := [] }

/-- A third ledger input. -/
def claim5Input3 : CorsErrorInput :=
  { timestamp := 7, route := "/c", method := "GET", origin := "https://x", diagnoses := [] }

/-- A ledger at capacity 2 holding entries for `/a` (inserted first) and
`/b` (inserted second, hence at the front). -/
def claim5FullLedger : ErrorHistory :=
  ErrorHistory.mk [newEntryOf claim5Input2, newEntryOf claim5Input] 2

/-! ## Character-level facts about the ASCII case mappings -/

theorem char_toNat_inj {a b : Char} (h : a.toNat = b.toNat) : a = b :=
  Char.ext (UInt32.ext h)

theorem toNat_ofNat_small {n : Nat} (h : n < 55296) : (Char.ofNat n).toNat = n := by
  have hv : n.isValidChar := Or.inl h
  unfold Char.ofNat
  rw [dif_pos hv]
  unfold Char.ofNatAux
  simp [Char.toNat, UInt32.toNat]

theorem jsCharToLower_toUpper (c : Char) :
    jsCharToLower (jsCharToUpper c) = jsCharToLower c := by
  unfold jsCharToUpper jsCharToLower
  by_cases h : 97 ≤ c.toNat ∧ c.toNat ≤ 122
  · rw [if_pos h]
    have h1 : (Char.ofNat (c.toNat - 32)).toNat = c.toNat - 32 :=
      toNat_ofNat_small (by omega)
    rw [h1, if_pos (by omega : 65 ≤ c.toNat - 32 ∧ c.toNat - 32 ≤ 90),
      if_neg (by omega : ¬(65 ≤ c.toNat ∧ c.toNat ≤ 90)),
      (by omega : c.toNat - 32 + 32 = c.toNat), Char.ofNat_toNat]
  · rw [if_neg h]

theorem jsIsWhitespace_toUpper (c : Char) :
    jsIsWhitespace (jsCharToUpper c) = jsIsWhitespace c := by
  unfold jsCharToUpper
  by_cases h : 97 ≤ c.toNat ∧ c.toNat ≤ 122
  · rw [if_pos h]
    have h1 : (Char.ofNat (c.toNat - 32)).toNat = c.toNat - 32 :=
      toNat_ofNat_small (by omega)
    have b1 : jsIsWhitespace (Char.ofNat (c.toNat - 32)) = false := by
      simp only [jsIsWhitespace, h1, Bool.or_eq_false_iff, decide_eq_false_iff_not]
      omega
    have b2 : jsIsWhitespace c = false := by
      simp only [jsIsWhitespace, Bool.or_eq_false_iff, decide_eq_false_iff_not]
      omega
    rw [b1, b2]
  · rw [if_neg h]

theorem jsCharToLower_eq_slash {c : Char} : jsCharToLower c = '/' ↔ c = '/' := by
  unfold jsCharToLower
  by_cases h : 65 ≤ c.toNat ∧ c.toNat ≤ 90
  · rw [if_pos h]
    have h1 : (Char.ofNat (c.toNat + 32)).toNat = c.toNat + 32 :=
      toNat_ofNat_small (by omega)
    constructor <;> intro he
    · have := congrArg Char.toNat he
      rw [h1] at this
      simp [show ('/').toNat = 47 from rfl] at this
      omega
    · have := congrArg Char.toNat he
      simp [show ('/').toNat = 47 from rfl] at this
      omega
  · rw [if_neg h]

/-! ## Trim and case-mapping facts on character lists -/

theorem trimChars_map_upper (l : List Char) :
    trimChars (l.map jsCharToUpper) = (trimChars l).map jsCharToUpper := by
  have hws : (jsIsWhitespace ∘ jsCharToUpper) = jsIsWhitespace :=
    funext jsIsWhitespace_toUpper
  simp [trimChars, List.dropWhile_map, hws, ← List.map_reverse]

theorem map_lower_upper (l : List Char) :
    (l.map jsCharToUpper).map jsCharToLower = l.map jsCharToLower := by
  rw [List.map_map]
  exact List.map_congr_left (fun c _ => jsCharToLower_toUpper c)

/-- `jsToLower (jsTrim s)` is invariant under upper-casing `s`. -/
theorem lower_trim_upper (s : String) :
    jsToLower (jsTrim (jsToUpper s)) = jsToLower (jsTrim s) := by
  simp only [jsToLower, jsTrim, jsToUpper, trimChars_map_upper]
  rw [map_lower_upper]

theorem jsToUpper_eq_empty_iff (s : String) : jsToUpper s = "" ↔ s = "" := by
  constructor <;> intro h
  · have := congrArg String.data h
    simp [jsToUpper] at this
    exact String.ext this
  · rw [h]
    rfl

theorem normalizeOrigin_upper (O : String) :
    normalizeOrigin (some (jsToUpper O)) = normalizeOrigin (some O) := by
  by_cases hO : O = ""
  · subst hO; rfl
  · have hO' : jsToUpper O ≠ "" := fun h => hO ((jsToUpper_eq_empty_iff O).mp h)
    simp only [normalizeOrigin, if_neg hO, if_neg hO']
    rw [lower_trim_upper]

theorem trimChars_append_slash (l : List Char) :
    trimChars (l ++ ['/']) = l.dropWhile jsIsWhitespace ++ ['/'] := by
  unfold trimChars
  rw [List.dropWhile_append]
  split
  · rename_i h
    have hnil : l.dropWhile jsIsWhitespace = [] := by simpa [List.isEmpty_iff] using h
    rw [hnil]
    rfl
  · rw [List.reverse_append]
    simp only [List.reverse_cons, List.reverse_nil, List.nil_append, List.singleton_append]
    rw [List.dropWhile_cons, if_neg (by decide)]
    simp

theorem getLast?_dropWhile_not_ws (l : List Char) (c : Char) (hc : l.getLast? = some c)
    (hw : jsIsWhitespace c = false) :
    (l.dropWhile jsIsWhitespace).getLast? = some c := by
  have hne : l.dropWhile jsIsWhitespace ≠ [] := by
    intro h
    have hall := List.dropWhile_eq_nil_iff.mp h
    have hmem : c ∈ l := by
      have hlne : l ≠ [] := by
        intro hnil
        rw [hnil] at hc
        exact Option.noConfusion hc
      rw [List.getLast?_eq_getLast l hlne] at hc
      injection hc with hc2
      rw [← hc2]
      exact List.getLast_mem hlne
    rw [hall c hmem] at hw
    exact Bool.noConfusion hw
  have hsplit := List.takeWhile_append_dropWhile jsIsWhitespace l
  calc (l.dropWhile jsIsWhitespace).getLast?
      = ((l.takeWhile jsIsWhitespace) ++ l.dropWhile jsIsWhitespace).getLast? := by
        rw [List.getLast?_append]
        rcases h2 : (l.dropWhile jsIsWhitespace).getLast? with _ | d
        · exact absurd (List.getLast?_eq_none_iff.mp h2) hne
        · rfl
    _ = l.getLast? := by rw [hsplit]
    _ = some c := hc

theorem trimChars_no_trailing_ws (l : List Char) (c : Char) (hc : l.getLast? = some c)
    (hw : jsIsWhitespace c = false) :
    trimChars l = l.dropWhile jsIsWhitespace := by
  unfold trimChars
  have hlast := getLast?_dropWhile_not_ws l c hc hw
  have hne : l.dropWhile jsIsWhitespace ≠ [] := by
    intro h
    rw [h] at hlast
    exact Option.noConfusion hlast
  obtain ⟨d, t, hrev⟩ : ∃ d t, (l.dropWhile jsIsWhitespace).reverse = d :: t := by
    cases h : (l.dropWhile jsIsWhitespace).reverse with
    | nil =>
      exact absurd (by simpa using congrArg List.reverse h) hne
    | cons d t => exact ⟨d, t, rfl⟩
  have hd : d = c := by
    have h3 := List.head?_reverse (l.dropWhile jsIsWhitespace)
    rw [hrev, hlast] at h3
    injection h3
  subst hd
  rw [hrev, List.dropWhile_cons, if_neg (by simp [hw])]
  rw [← hrev, List.reverse_reverse]

theorem normalizeOrigin_append_slash (O : String)
    (h : ∀ c, O.data.getLast? = some c → jsIsWhitespace c = false ∧ c ≠ '/') :
    normalizeOrigin (some (O ++ "/")) = normalizeOrigin (some O) := by
  by_cases hO : O = ""
  · subst hO; decide
  · have hOd : O.data ≠ [] := by
      intro hn
      exact hO (String.ext (by simp [hn]))
    obtain ⟨c, hc⟩ : ∃ c, O.data.getLast? = some c := by
      cases hgl : O.data.getLast? with
      | none => exact absurd (List.getLast?_eq_none_iff.mp hgl) hOd
      | some c => exact ⟨c, rfl⟩
    obtain ⟨hw, hs⟩ := h c hc
    have hdata : (O ++ "/").data = O.data ++ ['/'] := String.data_append O "/"
    have hne : O ++ "/" ≠ "" := by
      intro he
      have := congrArg String.data he
      rw [hdata] at this
      simp at this
    have h1 : (jsTrim (O ++ "/")).data = (O.data.dropWhile jsIsWhitespace) ++ ['/'] := by
      simp [jsTrim, hdata, trimChars_append_slash]
    have h2 : (jsTrim O).data = O.data.dropWhile jsIsWhitespace := by
      simp [jsTrim, trimChars_no_trailing_ws O.data c hc hw]
    have hlastL := getLast?_dropWhile_not_ws O.data c hc hw
    have hA : jsToLower (jsTrim (O ++ "/")) =
        String.mk ((O.data.dropWhile jsIsWhitespace).map jsCharToLower ++ ['/']) := by
      apply String.ext
      show (jsTrim (O ++ "/")).data.map jsCharToLower = _
      rw [h1, List.map_append]
      rfl
    have hB : jsToLower (jsTrim O) =
        String.mk ((O.data.dropWhile jsIsWhitespace).map jsCharToLower) := by
      apply String.ext
      show (jsTrim O).data.map jsCharToLower = _
      rw [h2]
    have hmk : ∀ X : List Char, (String.mk X).data = X := fun _ => rfl
    simp only [normalizeOrigin, if_neg hne, if_neg hO, hA, hB, hmk]
    rw [if_pos (by rw [List.getLast?_append]; rfl)]
    have hlow : ((O.data.dropWhile jsIsWhitespace).map jsCharToLower).getLast? =
        some (jsCharToLower c) := by
      rw [List.getLast?_map, hlastL]
      rfl
    rw [if_neg (by
      rw [hlow]
      intro hcon
      injection hcon with hcon2
      exact hs (jsCharToLower_eq_slash.mp hcon2))]
    rw [List.dropLast_concat]

/-- C6 (counterexample to the claim as stated): appending a trailing slash
is not absorbed for every origin — `normalizeOrigin` strips only one
trailing slash, so for `O = "a/"` the two sides differ ("a/" versus "a"). -/
theorem claim6_counterexample :
    normalizeOrigin (some ("a/" ++ "/")) ≠ normalizeOrigin (some "a/") := by decide

/-- C6 (amended): `normalizeOrigin` is invariant under upper-casing an
ASCII origin (the upper/lower round trip of the full JS mapping is not
the identity outside ASCII, e.g. on the dotless i, so the invariance is
asserted only where the mapping is the simple ASCII one); it maps
null/undefined and the empty string to `""`; and it absorbs an appended
trailing slash provided the origin does not already end in a slash or in
a `trim`-stripped whitespace character (only one trailing slash is
stripped, after trimming). -/
theorem claim6_normalizeOrigin_amended (O : String) :
    ((∀ c ∈ O.data, c.toNat < 128) →
      normalizeOrigin (some (jsToUpper O)) = normalizeOrigin (some O)) ∧
    normalizeOrigin none = "" ∧ normalizeOrigin (some "") = "" ∧
    ((∀ c, O.data.getLast? = some c → jsIsWhitespace c = false ∧ c ≠ '/') →
      normalizeOrigin (some (O ++ "/")) = normalizeOrigin (some O)) :=
  ⟨fun _ => normalizeOrigin_upper O, rfl, rfl, normalizeOrigin_append_slash O⟩

/-- C6 auxiliary check: the trim model strips the line-tabulation and
form-feed characters, so an origin ending in one of them falls outside
the absorption conjunct's hypothesis and is itself trimmed. -/
theorem claim6_vt_trimmed :
    normalizeOrigin (some "a\x0B") = "a" ∧ jsIsWhitespace '\x0B' = true := by decide

/-- C6 witness: the amended claim applied at a concrete origin. -/
theorem claim6_witness :
    normalizeOrigin (some (jsToUpper "https://example.com")) =
      normalizeOrigin (some "https://example.com") ∧
    normalizeOrigin (some ("https://example.com" ++ "/")) =
      normalizeOrigin (some "https://example.com") :=
  ⟨(claim6_normalizeOrigin_amended "https://example.com").1 (by decide),
   (claim6_normalizeOrigin_amended "https://example.com").2.2.2 (by
     intro c hc
     have h2 : "https://example.com".data.getLast? = some 'm' := by decide
     rw [h2] at hc
     injection hc with hc2
     subst hc2
     exact ⟨by decide, by decide⟩)⟩

/-! ## Facts about the header map model -/

theorem find?_replace_self (m : HeaderMap) (k v : String) :
    (m.map (fun p => if p.1 = k then (k, v) else p)).find? (fun p => p.1 = k) =
      if m.any (fun p => p.1 = k) then some (k, v) else none := by
  induction m with
  | nil => rfl
  | cons q t ih =>
    rw [List.map_cons, List.any_cons]
    by_cases hq : q.1 = k
    · rw [if_pos hq]
      rw [List.find?_cons_of_pos _ (by simp)]
      have h2 : (decide (q.1 = k) || t.any fun p => decide (p.1 = k)) = true := by
        simp [hq]
      rw [h2, if_pos rfl]
    · rw [if_neg hq]
      rw [List.find?_cons_of_neg _ (by simp [hq]), ih]
      have h2 : (decide (q.1 = k) || t.any fun p => decide (p.1 = k)) =
          (t.any fun p => decide (p.1 = k)) := by
        simp [hq]
      rw [h2]

theorem find?_replace_ne (m : HeaderMap) (k v k' : String) (h : k' ≠ k) :
    (m.map (fun p => if p.1 = k then (k, v) else p)).find? (fun p => p.1 = k') =
      m.find? (fun p => p.1 = k') := by
  induction m with
  | nil => rfl
  | cons q t ih =>
    rw [List.map_cons]
    by_cases hq : q.1 = k
    · rw [if_pos hq]
      rw [List.find?_cons_of_neg _ (by simp [Ne.symm h]),
        List.find?_cons_of_neg _ (by simp [hq, Ne.symm h]), ih]
    · rw [if_neg hq]
      by_cases hq' : q.1 = k'
      · rw [List.find?_cons_of_pos _ (by simp [hq']),
          List.find?_cons_of_pos _ (by simp [hq'])]
      · rw [List.find?_cons_of_neg _ (by simp [hq']),
          List.find?_cons_of_neg _ (by simp [hq']), ih]

theorem mapGet_mapSet_self (m : HeaderMap) (k v : String) :
    mapGet (mapSet m k v) k = some v := by
  unfold mapSet mapGet
  by_cases h : m.any (fun p => p.1 = k)
  · rw [if_pos h, find?_replace_self, if_pos h]
    rfl
  · rw [if_neg h, List.find?_append]
    have h1 : m.find? (fun p => p.1 = k) = none := by
      rw [List.find?_eq_none]
      intro x hx
      intro hxk
      apply h
      rw [List.any_eq_true]
      exact ⟨x, hx, hxk⟩
    rw [h1]
    simp

theorem mapGet_mapSet_ne (m : HeaderMap) (k v k' : String) (h : k' ≠ k) :
    mapGet (mapSet m k v) k' = mapGet m k' := by
  unfold mapSet mapGet
  by_cases ha : m.any (fun p => p.1 = k)
  · rw [if_pos ha, find?_replace_ne m k v k' h]
  · rw [if_neg ha, List.find?_append]
    have h1 : ([(k, v)] : HeaderMap).find? (fun p => p.1 = k') = none := by
      simp [Ne.symm h]
    rw [h1]
    simp

/-- Whoever a lookup finds after a `set`, its value is the one just written
or one already present. -/
theorem mapGet_mapSet_cases (m : HeaderMap) (k v k' w : String)
    (h : mapGet (mapSet m k v) k' = some w) : w = v ∨ mapGet m k' = some w := by
  by_cases hk : k' = k
  · subst hk
    rw [mapGet_mapSet_self] at h
    injection h with h2
    exact Or.inl h2.symm
  · rw [mapGet_mapSet_ne m k v k' hk] at h
    exact Or.inr h

theorem parseHeadersStep_preserves (acc : HeaderMap) (kv : String × HeaderValue)
    (hacc : ∀ k v, mapGet acc k = some v → v ≠ "") :
    ∀ k v, mapGet (parseHeadersStep acc kv) k = some v → v ≠ "" := by
  obtain ⟨key, val⟩ := kv
  intro k v hv
  cases val with
  | undef => exact hacc k v hv
  | str s =>
    by_cases hs : s ≠ ""
    · simp only [parseHeadersStep, if_pos hs] at hv
      rcases mapGet_mapSet_cases _ _ _ _ _ hv with h1 | h1
      · rw [h1]; exact hs
      · exact hacc k v h1
    · simp only [parseHeadersStep, if_neg hs] at hv
      exact hacc k v hv
  | arr a =>
    cases ha : a.head? with
    | none =>
      simp only [parseHeadersStep, ha] at hv
      exact hacc k v hv
    | some s =>
      by_cases hs : s ≠ ""
      · simp only [parseHeadersStep, ha, if_pos hs] at hv
        rcases mapGet_mapSet_cases _ _ _ _ _ hv with h1 | h1
        · rw [h1]; exact hs
        · exact hacc k v h1
      · simp only [parseHeadersStep, ha, if_neg hs] at hv
        exact hacc k v hv

theorem parseHeaders_foldl_nonempty (hs : HeaderBag) :
    ∀ (acc : HeaderMap), (∀ k v, mapGet acc k = some v → v ≠ "") →
      ∀ k v, mapGet (hs.foldl parseHeadersStep acc) k = some v → v ≠ "" := by
  induction hs with
  | nil => intro acc hacc; exact hacc
  | cons kv t ih =>
    intro acc hacc
    rw [List.foldl_cons]
    exact ih _ (parseHeadersStep_preserves acc kv hacc)

/-- C9: the header view only holds non-empty values — a header whose raw
value (or whose first array element) is the empty string contributes no
key at all, so the resulting view is literally the one built without that
entry, and every downstream check treats it as an absent header. -/
theorem claim9_parseHeaders_nonempty :
    (∀ (hs : HeaderBag) (k v : String),
      mapGet (parseHeaders (some hs)) k = some v → v ≠ "") ∧
    (∀ (pre post : HeaderBag) (k : String) (val : HeaderValue),
      (val = HeaderValue.str "" ∨ ∃ t, val = HeaderValue.arr ("" :: t)) →
      parseHeaders (some (pre ++ (k, val) :: post)) = parseHeaders (some (pre ++ post))) := by
  constructor
  · intro hs k v
    exact parseHeaders_foldl_nonempty hs [] (by intro k' v' h; simp [mapGet] at h) k v
  · intro pre post k val hval
    simp only [parseHeaders]
    rw [List.foldl_append, List.foldl_cons, List.foldl_append]
    congr 1
    rcases hval with h | ⟨t, h⟩ <;> subst h <;> simp [parseHeadersStep]

/-- C9 witness: the theorem applied at concrete header bags. -/
theorem claim9_witness :
    ("hello" : String) ≠ "" ∧
    parseHeaders (some ([("a", HeaderValue.str "x")] ++ ("K", HeaderValue.str "") :: [("b", HeaderValue.str "y")])) =
      parseHeaders (some ([("a", HeaderValue.str "x")] ++ [("b", HeaderValue.str "y")])) :=
  ⟨claim9_parseHeaders_nonempty.1 [("h", HeaderValue.str "hello")] "h" "hello" (by decide),
   claim9_parseHeaders_nonempty.2 [("a", HeaderValue.str "x")] [("b", HeaderValue.str "y")]
     "K" (HeaderValue.str "") (Or.inl rfl)⟩

/-! ## Stable sort facts and the security rule set -/

theorem insertBy_all_le {α : Type} {le : α → α → Bool} {a : α} {l : List α}
    (h : ∀ b ∈ l, le a b = true) : insertBy le a l = a :: l := by
  cases l with
  | nil => rfl
  | cons b t =>
    simp only [insertBy]
    rw [if_pos (h b (List.mem_cons_self b t))]

theorem insertBy_append_not {α : Type} (le : α → α → Bool) (a : α) (l : List α) :
    ∀ C : List α, (∀ b ∈ C, le a b = false) →
      insertBy le a (C ++ l) = C ++ insertBy le a l := by
  intro C
  induction C with
  | nil => intro _; rfl
  | cons c t ih =>
    intro h
    rw [List.cons_append]
    simp only [insertBy]
    rw [if_neg (by simp [h c (List.mem_cons_self c t)])]
    rw [ih (fun b hb => h b (List.mem_cons_of_mem c hb)), List.cons_append]

theorem mem_filter_level {v : Level} {l : List SecurityIssue} {x : SecurityIssue}
    (h : x ∈ l.filter (fun i => i.level == v)) : x.level = v := by
  rcases List.mem_filter.mp h with ⟨_, h2⟩
  exact eq_of_beq (by simpa using h2)

/-- The stable sort by severity rank is exactly bucket concatenation:
critical issues first, then warnings, then infos, each bucket keeping the
generation order. -/
theorem stableSort_issueLe_buckets (l : List SecurityIssue) :
    stableSort issueLe l =
      l.filter (fun i => i.level == Level.critical) ++
      l.filter (fun i => i.level == Level.warning) ++
      l.filter (fun i => i.level == Level.info) := by
  induction l with
  | nil => rfl
  | cons a t ih =>
    simp only [stableSort]
    rw [ih]
    cases ha : a.level with
    | critical =>
      rw [insertBy_all_le (by
        intro b _
        simp [issueLe, levelRank, ha])]
      simp [List.filter_cons, ha]
    | warning =>
      rw [List.append_assoc]
      rw [insertBy_append_not issueLe a _ _ (by
        intro b hb
        have hbl := mem_filter_level hb
        simp [issueLe, levelRank, ha, hbl])]
      rw [insertBy_all_le (by
        intro b hb
        rcases List.mem_append.mp hb with h2 | h2
        · have hbl := mem_filter_level h2
          simp [issueLe, levelRank, ha, hbl]
        · have hbl := mem_filter_level h2
          simp [issueLe, levelRank, ha, hbl])]
      simp [List.filter_cons, ha, List.append_assoc]
    | info =>
      rw [List.append_assoc]
      rw [insertBy_append_not issueLe a _ _ (by
        intro b hb
        have hbl := mem_filter_level hb
        simp [issueLe, levelRank, ha, hbl])]
      rw [insertBy_append_not issueLe a _ _ (by
        intro b hb
        have hbl := mem_filter_level hb
        simp [issueLe, levelRank, ha, hbl])]
      rw [insertBy_all_le (by
        intro b hb
        have hbl := mem_filter_level hb
        simp [issueLe, levelRank, ha, hbl])]
      simp [List.filter_cons, ha, List.append_assoc]

theorem pairwise_rank_of_const {v : Level} {l : List SecurityIssue}
    (h : ∀ x ∈ l, x.level = v) :
    l.Pairwise (fun a b => levelRank a.level ≤ levelRank b.level) := by
  induction l with
  | nil => exact List.Pairwise.nil
  | cons a t ih =>
    refine List.Pairwise.cons ?_ (ih fun x hx => h x (List.mem_cons_of_mem a hx))
    intro b hb
    rw [h a (List.mem_cons_self a t), h b (List.mem_cons_of_mem a hb)]

theorem stableSort_issueLe_pairwise (l : List SecurityIssue) :
    (stableSort issueLe l).Pairwise (fun a b => levelRank a.level ≤ levelRank b.level) := by
  rw [stableSort_issueLe_buckets]
  rw [List.append_assoc, List.pairwise_append]
  refine ⟨pairwise_rank_of_const (fun x hx => mem_filter_level hx), ?_, ?_⟩
  · rw [List.pairwise_append]
    refine ⟨pairwise_rank_of_const (fun x hx => mem_filter_level hx),
      pairwise_rank_of_const (fun x hx => mem_filter_level hx), ?_⟩
    intro a ha b hb
    rw [mem_filter_level ha, mem_filter_level hb]
    simp [levelRank]
  · intro a ha b hb
    rw [mem_filter_level ha]
    rcases List.mem_append.mp hb with h2 | h2 <;>
      rw [mem_filter_level h2] <;> simp [levelRank]

/-- C2: `checkSecurity` always returns the raw issues of the four checks
stably sorted by severity rank — the critical bucket, then the warning
bucket, then the info bucket, each in generation order; the result is
rank-sorted, the minimal configuration yields the empty list (never null),
and the spec's Scenario 5 input yields exactly the four issues ordered
critical, warning, warning, info. -/
theorem claim2_checkSecurity (config : CorsConfiguration) (environment : Env) :
    checkSecurity config environment =
      (checkSecurityRaw config environment).filter (fun i => i.level == Level.critical) ++
      (checkSecurityRaw config environment).filter (fun i => i.level == Level.warning) ++
      (checkSecurityRaw config environment).filter (fun i => i.level == Level.info) ∧
    (checkSecurity config environment).Pairwise
      (fun a b => levelRank a.level ≤ levelRank b.level) ∧
    checkSecurity emptyConfig environment = [] ∧
    (checkSecurity scenario5Config Env.production).map SecurityIssue.level =
      [Level.critical, Level.warning, Level.warning, Level.info] := by
  refine ⟨stableSort_issueLe_buckets _, stableSort_issueLe_pairwise _, ?_, ?_⟩
  · cases environment <;> rfl
  · decide

/-! ## `testOrigin` facts -/

theorem serialize_preserves (config : CorsConfiguration) (h : HeaderMap) (k : String)
    (h1 : k ≠ "Access-Control-Allow-Methods") (h2 : k ≠ "Access-Control-Allow-Headers")
    (h3 : k ≠ "Access-Control-Expose-Headers") (h4 : k ≠ "Access-Control-Max-Age") :
    mapGet (serializeConfigHeaders config h) k = mapGet h k := by
  cases hm : config.methods <;> cases hah : config.allowedHeaders <;>
    cases heh : config.exposedHeaders <;> cases hma : config.maxAge <;>
    simp only [serializeConfigHeaders, hm, hah, heh, hma] <;>
    (try split_ifs) <;>
    simp [mapGet_mapSet_ne, h1, h2, h3, h4]

theorem serialize_methods (config : CorsConfiguration) (h : HeaderMap) (ms : List String)
    (hm : config.methods = some ms) (hne : ms ≠ []) :
    mapGet (serializeConfigHeaders config h) "Access-Control-Allow-Methods" =
      some (jsJoin ", " ms) := by
  have hlen : ms.length > 0 := List.length_pos.mpr hne
  have d1 : ("Access-Control-Allow-Methods" : String) ≠ "Access-Control-Allow-Headers" := by decide
  have d2 : ("Access-Control-Allow-Methods" : String) ≠ "Access-Control-Expose-Headers" := by decide
  have d3 : ("Access-Control-Allow-Methods" : String) ≠ "Access-Control-Max-Age" := by decide
  cases hah : config.allowedHeaders <;> cases heh : config.exposedHeaders <;>
    cases hma : config.maxAge <;>
    simp only [serializeConfigHeaders, hm, hah, heh, hma, if_pos hlen] <;>
    (try split_ifs) <;>
    simp [mapGet_mapSet_ne, mapGet_mapSet_self, d1, d2, d3]

theorem serialize_allowedHeaders (config : CorsConfiguration) (h : HeaderMap) (hs : List String)
    (hm : config.allowedHeaders = some hs) (hne : hs ≠ []) :
    mapGet (serializeConfigHeaders config h) "Access-Control-Allow-Headers" =
      some (jsJoin ", " hs) := by
  have hlen : hs.length > 0 := List.length_pos.mpr hne
  have d1 : ("Access-Control-Allow-Headers" : String) ≠ "Access-Control-Expose-Headers" := by decide
  have d2 : ("Access-Control-Allow-Headers" : String) ≠ "Access-Control-Max-Age" := by decide
  cases hme : config.methods <;> cases heh : config.exposedHeaders <;>
    cases hma : config.maxAge <;>
    simp only [serializeConfigHeaders, hme, hm, heh, hma, if_pos hlen] <;>
    (try split_ifs) <;>
    simp [mapGet_mapSet_ne, mapGet_mapSet_self, d1, d2]

theorem serialize_exposedHeaders (config : CorsConfiguration) (h : HeaderMap) (hs : List String)
    (hm : config.exposedHeaders = some hs) (hne : hs ≠ []) :
    mapGet (serializeConfigHeaders config h) "Access-Control-Expose-Headers" =
      some (jsJoin ", " hs) := by
  have hlen : hs.length > 0 := List.length_pos.mpr hne
  have d1 : ("Access-Control-Expose-Headers" : String) ≠ "Access-Control-Max-Age" := by decide
  cases hme : config.methods <;> cases hah : config.allowedHeaders <;>
    cases hma : config.maxAge <;>
    simp only [serializeConfigHeaders, hme, hah, hm, hma, if_pos hlen] <;>
    (try split_ifs) <;>
    simp [mapGet_mapSet_ne, mapGet_mapSet_self, d1]

theorem serialize_maxAge (config : CorsConfiguration) (h : HeaderMap) (n : JsNum)
    (hm : config.maxAge = some n) :
    mapGet (serializeConfigHeaders config h) "Access-Control-Max-Age" =
      some n.asString := by
  cases hme : config.methods <;> cases hah : config.allowedHeaders <;>
    cases heh : config.exposedHeaders <;>
    simp only [serializeConfigHeaders, hme, hah, heh, hm] <;>
    (try split_ifs) <;>
    simp [mapGet_mapSet_self]

/-- C3: whenever credentials are configured and the resolved allow-origin
header would be the wildcard (config.origin is `true` or `"*"`),
`testOrigin` refuses the origin — whatever origin was tested — with the
wildcard-with-credentials reason. -/
theorem claim3_testOrigin_wildcard_credentials (origin : String) (config : CorsConfiguration)
    (hcred : config.credentials = some true)
    (horig : config.origin = OriginCfg.bool true ∨ config.origin = OriginCfg.str "*") :
    (testOrigin origin config).allowed = false ∧
    (testOrigin origin config).reason =
      some "Cannot use wildcard origin (*) with credentials. Must specify exact origin." := by
  rcases horig with h | h <;>
    simp [testOrigin, h, hcred, mapSet, mapGet]

/-- C3 witness: the theorem applied at a concrete origin and configuration. -/
theorem claim3_witness :
    (testOrigin "https://example.com"
        { origin := OriginCfg.str "*", credentials := some true }).allowed = false :=
  (claim3_testOrigin_wildcard_credentials "https://example.com"
    { origin := OriginCfg.str "*", credentials := some true }
    rfl (Or.inr rfl)).1

/-- C10: on the wildcard-with-credentials rejection the returned headers
still carry `Access-Control-Allow-Origin: *` and
`Access-Control-Allow-Credentials: true`; and for every configuration the
methods, allowedHeaders, exposedHeaders and maxAge headers are serialized
into the returned map, whether or not the origin was allowed. -/
theorem claim10_testOrigin_headers (origin : String) (config : CorsConfiguration) :
    (config.credentials = some true →
      (config.origin = OriginCfg.bool true ∨ config.origin = OriginCfg.str "*") →
      (testOrigin origin config).allowed = false ∧
      mapGet (testOrigin origin config).headers "Access-Control-Allow-Origin" = some "*" ∧
      mapGet (testOrigin origin config).headers "Access-Control-Allow-Credentials" = some "true") ∧
    (∀ ms, config.methods = some ms → ms ≠ [] →
      mapGet (testOrigin origin config).headers "Access-Control-Allow-Methods" =
        some (jsJoin ", " ms)) ∧
    (∀ hs, config.allowedHeaders = some hs → hs ≠ [] →
      mapGet (testOrigin origin config).headers "Access-Control-Allow-Headers" =
        some (jsJoin ", " hs)) ∧
    (∀ hs, config.exposedHeaders = some hs → hs ≠ [] →
      mapGet (testOrigin origin config).headers "Access-Control-Expose-Headers" =
        some (jsJoin ", " hs)) ∧
    (∀ n, config.maxAge = some n →
      mapGet (testOrigin origin config).headers "Access-Control-Max-Age" =
        some n.asString) := by
  refine ⟨?_, ?_, ?_, ?_, ?_⟩
  · intro hcred horig
    rcases horig with h | h <;>
      refine ⟨?_, ?_, ?_⟩ <;>
      first
        | (simp [testOrigin, h, hcred, mapSet, mapGet]; done)
        | (simp [testOrigin, h, hcred, mapSet, serialize_preserves]; simp [mapGet])
  · intro ms hm hne
    exact serialize_methods config _ ms hm hne
  · intro hs hm hne
    exact serialize_allowedHeaders config _ hs hm hne
  · intro hs hm hne
    exact serialize_exposedHeaders config _ hs hm hne
  · intro n hm
    exact serialize_maxAge config _ n hm

/-- C10 witness: the theorem applied at a concrete origin and configuration. -/
theorem claim10_witness :
    (testOrigin "https://a.com" claim10Config).allowed = false ∧
    mapGet (testOrigin "https://a.com" claim10Config).headers "Access-Control-Allow-Origin" = some "*" ∧
    mapGet (testOrigin "https://a.com" claim10Config).headers "Access-Control-Allow-Credentials" = some "true" ∧
    mapGet (testOrigin "https://a.com" claim10Config).headers "Access-Control-Allow-Methods" =
      some (jsJoin ", " ["GET", "DELETE"]) ∧
    mapGet (testOrigin "https://a.com" claim10Config).headers "Access-Control-Max-Age" =
      some ((JsNum.int 3600).asString) := by
  have h := claim10_testOrigin_headers "https://a.com" claim10Config
  have ha := h.1 rfl (Or.inr rfl)
  exact ⟨ha.1, ha.2.1, ha.2.2, h.2.1 ["GET", "DELETE"] rfl (by decide),
    h.2.2.2.2 (JsNum.int 3600) rfl⟩

/-! ## `compareConfiguration` facts -/

/-- C7 (evaluation at the failing input): `compareConfiguration` finds the
two configurations equivalent — the diff is empty — yet the call leaves
`current.methods` sorted to `["GET", "POST"]`, not the `["POST", "GET"]`
it was passed: the `normalize` helper's `value.sort()` sorts the caller's
array in place, so the function is not free of side effects. -/
theorem claim7_mutation_eval :
    claim7Current.methods = some ["POST", "GET"] ∧
    (compareConfiguration claim7Current claim7Expected).1.missing = [] ∧
    (compareConfiguration claim7Current claim7Expected).1.incorrect = [] ∧
    (compareConfiguration claim7Current claim7Expected).1.extra = [] ∧
    (compareConfiguration claim7Current claim7Expected).2.1.methods = some ["GET", "POST"] ∧
    (compareConfiguration claim7Current claim7Expected).2.1 ≠ claim7Current := by
  decide

/-- C8: comparing any configuration against itself (maxAge not `NaN`, the
one number for which JS strict equality fails reflexivity) yields the
empty diff and the match summary. -/
theorem claim8_compare_self (X : CorsConfiguration) (hnan : X.maxAge ≠ some JsNum.nan) :
    (compareConfiguration X X).1 =
      { missing := [], incorrect := [], extra := [],
        summary := "Configurations match perfectly." } := by
  obtain ⟨o, ms, ah, eh, cr, ma⟩ := X
  cases ma with
  | none =>
    cases o <;> cases ms <;> cases ah <;> cases eh <;> cases cr <;>
      simp [compareConfiguration, cfgKeys, compareStep, cfgGet, cfgSortKey,
        normalizeVal, isEqualVal, JsNum.strictEq, CfgKey.asString]
  | some n =>
    cases n with
    | int k =>
      cases o <;> cases ms <;> cases ah <;> cases eh <;> cases cr <;>
        simp [compareConfiguration, cfgKeys, compareStep, cfgGet, cfgSortKey,
          normalizeVal, isEqualVal, JsNum.strictEq, CfgKey.asString]
    | nan => exact absurd rfl hnan

/-- C8 witness: the theorem applied at a concrete configuration. -/
theorem claim8_witness :
    (compareConfiguration claim8Config claim8Config).1 =
      { missing := [], incorrect := [], extra := [],
        summary := "Configurations match perfectly." } :=
  claim8_compare_self claim8Config (by decide)

/-! ## Catalog scan facts -/

theorem detectPatternWith_eq_firstMatch (catalog : List ErrorPattern) (req : Req)
    (res : HeaderBag) :
    detectPatternWith catalog req res = firstMatchSpec catalog req res := by
  induction catalog with
  | nil => rfl
  | cons p rest ih =>
    cases hd : p.detector req res with
    | ok b =>
      cases b
      · simp [detectPatternWith, firstMatchSpec, List.find?_cons, hd, ih,
          firstMatchSpec]
      · simp [detectPatternWith, firstMatchSpec, List.find?_cons, hd]
    | error e =>
      simp [detectPatternWith, firstMatchSpec, List.find?_cons, hd, ih]

theorem detectPatternWith_skip (req : Req) (res : HeaderBag) (p : ErrorPattern) (e : Unit)
    (hp : p.detector req res = Except.error e) :
    ∀ cat₁ cat₂ : List ErrorPattern,
      detectPatternWith (cat₁ ++ p :: cat₂) req res =
        detectPatternWith (cat₁ ++ cat₂) req res := by
  intro cat₁
  induction cat₁ with
  | nil =>
    intro cat₂
    simp only [List.nil_append, detectPatternWith, hp]
  | cons q t ih =>
    intro cat₂
    simp only [List.cons_append, detectPatternWith]
    cases hq : q.detector req res with
    | ok b =>
      cases b
      · simpa [hq] using ih cat₂
      · simp [hq]
    | error f => simpa [hq] using ih cat₂

/-- C4: `detectPattern` scans the fixed catalog in declaration order and
returns the first entry whose detector yields true, or none when no
detector matches; and a detector that throws is treated as a non-match —
deleting it from any catalog position leaves the scan's result unchanged,
so one throwing detector never aborts the scan nor changes the result for
later entries. -/
theorem claim4_detectPattern (req : Req) (res : HeaderBag) :
    detectPattern req res = firstMatchSpec COMMON_PATTERNS req res ∧
    (∀ (cat₁ cat₂ : List ErrorPattern) (p : ErrorPattern) (e : Unit),
      p.detector req res = Except.error e →
      detectPatternWith (cat₁ ++ p :: cat₂) req res =
        detectPatternWith (cat₁ ++ cat₂) req res) :=
  ⟨detectPatternWith_eq_firstMatch COMMON_PATTERNS req res,
   fun cat₁ cat₂ p e hp => detectPatternWith_skip req res p e hp cat₁ cat₂⟩

/-- C4 witness: a throwing detector at the head of a two-entry catalog is
skipped and the scan continues with the next entry. -/
theorem claim4_witness :
    detectPatternWith ([] ++ throwingPattern :: [patWildcardCredentials]) exampleReq [] =
      detectPatternWith ([] ++ [patWildcardCredentials]) exampleReq [] :=
  (claim4_detectPattern exampleReq []).2 [] [patWildcardCredentials] throwingPattern () rfl

/-! ## Analyzer totality and graceful degradation -/

/-- C1: `analyzeHeaders` returns, for every request method, request header
bag and response header bag, a complete diagnosis list — the ad hoc check
diagnoses, then the catalog part, then the security issues; it is a total
function of its inputs (the embedding never throws), and the one fallible
sub-step, a catalog detector, degrades gracefully: a detector that throws
is skipped and every diagnosis not derived from it is still produced,
whatever the catalog and the detector's position in it. -/
theorem claim1_analyzeHeaders (req : Req) (res : HeaderBag) :
    (∃ patternPart, analyzeHeaders req res =
      adHocDiagnoses req res ++ patternPart ++ securityDiagnoses res) ∧
    (∀ (cat₁ cat₂ : List ErrorPattern) (p : ErrorPattern) (e : Unit),
      p.detector req res = Except.error e →
      analyzeHeadersWith (cat₁ ++ p :: cat₂) req res =
        analyzeHeadersWith (cat₁ ++ cat₂) req res) := by
  constructor
  · refine ⟨patternDiagnoses COMMON_PATTERNS req res (adHocDiagnoses req res), ?_⟩
    simp [analyzeHeaders, analyzeHeadersWith, List.append_assoc]
  · intro cat₁ cat₂ p e hp
    simp [analyzeHeadersWith, patternDiagnoses,
      detectPatternWith_skip req res p e hp cat₁ cat₂]

/-- C1 witness: prefixing the catalog with a throwing detector leaves the
analysis of a concrete request unchanged. -/
theorem claim1_witness :
    analyzeHeadersWith ([] ++ throwingPattern :: COMMON_PATTERNS) exampleReq [] =
      analyzeHeadersWith ([] ++ COMMON_PATTERNS) exampleReq [] :=
  (claim1_analyzeHeaders exampleReq []).2 [] COMMON_PATTERNS throwingPattern () rfl

/-! ## History ledger facts -/

theorem zip_self_all (l : List Diagnosis) :
    ((l.zip l).all fun p =>
      p.1.issue == p.2.issue && p.1.description == p.2.description &&
        p.1.recommendation == p.2.recommendation) = true := by
  induction l with
  | nil => rfl
  | cons d t ih => simp [List.zip_cons_cons, List.all_cons, ih]

theorem diagnosesMatch_refl (d : List Diagnosis) : diagnosesMatch d d = true := by
  unfold diagnosesMatch
  rw [if_neg (by simp)]
  exact zip_self_all (stableSort diagLe d)

theorem errorMatches_self (inp : CorsErrorInput) (n t : Nat) :
    errorMatches { newEntryOf inp with count := n, timestamp := t } inp = true := by
  simp [errorMatches, newEntryOf, diagnosesMatch_refl]

theorem addTimes_single (C : Nat) (inp : CorsErrorInput) (hC : 1 ≤ C) :
    ∀ N, 1 ≤ N →
      (ErrorHistory.mk [] C).addTimes inp N =
        ErrorHistory.mk [{ newEntryOf inp with count := N }] C := by
  intro N
  induction N with
  | zero => intro h; exact absurd h (by omega)
  | succ n ih =>
    intro _
    by_cases hn : 1 ≤ n
    · rw [ErrorHistory.addTimes, ih hn]
      simp only [ErrorHistory.add, newEntryOf]
      rw [List.find?_cons_of_pos _ (by exact errorMatches_self inp n inp.timestamp)]
      simp only [replaceFirst]
      rw [if_pos (by exact errorMatches_self inp n inp.timestamp)]
    · have hn0 : n = 0 := by omega
      subst hn0
      rw [ErrorHistory.addTimes, ErrorHistory.addTimes]
      simp only [ErrorHistory.add, List.find?_nil]
      rw [if_neg (by simp; omega)]
      simp [newEntryOf]

theorem add_evicts (h : ErrorHistory) (inp : CorsErrorInput)
    (hcap : 1 ≤ h.maxSize) (hfull : h.errors.length = h.maxSize)
    (hnone : h.errors.find? (fun e => errorMatches e inp) = none) :
    (h.add inp).errors = newEntryOf inp :: h.errors.dropLast ∧
    (h.add inp).errors.length = h.maxSize := by
  have hne : h.errors ≠ [] := by
    intro h0
    rw [h0] at hfull
    simp at hfull
    omega
  have herr : (h.add inp).errors = newEntryOf inp :: h.errors.dropLast := by
    simp only [ErrorHistory.add, hnone]
    rw [if_pos (by simp [hfull])]
    exact List.dropLast_cons_of_ne_nil hne
  refine ⟨herr, ?_⟩
  rw [herr]
  simp [List.length_dropLast]
  omega

theorem replaceFirst_map {α β : Type} (p : α → Bool) (f : α → α) (g : α → β)
    (hg : ∀ x, g (f x) = g x) : ∀ l : List α, (replaceFirst p f l).map g = l.map g := by
  intro l
  induction l with
  | nil => rfl
  | cons x xs ih =>
    simp only [replaceFirst]
    by_cases hx : p x
    · rw [if_pos hx]
      simp [hg]
    · rw [if_neg hx]
      simp [ih]

theorem add_existing_keeps_keys (h : ErrorHistory) (inp : CorsErrorInput)
    (hsome : (h.errors.find? (fun e => errorMatches e inp)).isSome) :
    (h.add inp).errors.map (fun e => (e.route, e.method, e.origin, e.diagnoses)) =
      h.errors.map (fun e => (e.route, e.method, e.origin, e.diagnoses)) := by
  cases hf : h.errors.find? (fun e => errorMatches e inp) with
  | none => rw [hf] at hsome; simp at hsome
  | some x =>
    simp only [ErrorHistory.add, hf]
    exact replaceFirst_map (fun e => errorMatches e inp)
      (fun e => { e with count := e.count + 1, timestamp := inp.timestamp })
      (fun e => (e.route, e.method, e.origin, e.diagnoses)) (fun _ => rfl) h.errors

/-- C5: from an empty ledger of capacity C ≥ 1, N adds with the same
route, method, origin and diagnosis signature leave exactly one entry, for
that key, with count N; an add that misses every existing key while the
ledger is full unshifts the fresh entry and pops the last list element —
the earliest-inserted entry, since entries enter at the front and, as the
third conjunct states, an add that hits an existing key leaves the key
sequence (and hence every entry's position) unchanged rather than moving
it to the front — so exactly C entries remain and eviction follows
original insertion order, not recency of occurrence. -/
theorem claim5_history_ledger :
    (∀ (C N : Nat) (inp : CorsErrorInput), 1 ≤ C → 1 ≤ N →
      ((ErrorHistory.mk [] C).addTimes inp N).errors = [{ newEntryOf inp with count := N }]) ∧
    (∀ (h : ErrorHistory) (inp : CorsErrorInput), 1 ≤ h.maxSize →
      h.errors.length = h.maxSize →
      h.errors.find? (fun e => errorMatches e inp) = none →
      (h.add inp).errors = newEntryOf inp :: h.errors.dropLast ∧
      (h.add inp).errors.length = h.maxSize) ∧
    (∀ (h : ErrorHistory) (inp : CorsErrorInput),
      (h.errors.find? (fun e => errorMatches e inp)).isSome →
      (h.add inp).errors.map (fun e => (e.route, e.method, e.origin, e.diagnoses)) =
        h.errors.map (fun e => (e.route, e.method, e.origin, e.diagnoses))) :=
  ⟨fun C N inp hC hN => by rw [addTimes_single C inp hC N hN],
   add_evicts, add_existing_keeps_keys⟩

/-- C5 witness: three adds of one error on an empty capacity-2 ledger give
a single entry with count 3; an add of a new key on a full capacity-2
ledger keeps 2 entries and evicts the earliest-inserted one. -/
theorem claim5_witness :
    ((ErrorHistory.mk [] 2).addTimes claim5Input 3).errors =
      [{ newEntryOf claim5Input with count := 3 }] ∧
    (claim5FullLedger.add claim5Input3).errors =
      newEntryOf claim5Input3 :: claim5FullLedger.errors.dropLast ∧
    (claim5FullLedger.add claim5Input3).errors.length = claim5FullLedger.maxSize :=
  ⟨claim5_history_ledger.1 2 3 claim5Input (by decide) (by decide),
   (claim5_history_ledger.2.1 claim5FullLedger claim5Input3 (by decide) (by decide)
     (by decide)).1,
   (claim5_history_ledger.2.1 claim5FullLedger claim5Input3 (by decide) (by decide)
     (by decide)).2⟩

end CorsDiag
